import Mathlib

/-!
Shallow embedding of the Clue board-game rules engine
(`clue_game/game_state.py`, `clue_game/notebook.py`,
`clue_game/tools/game_tools.py`, `clue_game/main.py`)
together with theorems settling the specification claims.

Python dictionaries keyed by player name are modelled as association
lists whose key set is the game's player list (exactly how the code
initialises them); Python sets of visited squares are modelled as lists
with member-checked insertion; the `random` calls are modelled as
explicit parameters (an index for `random.choice`, a permuted list for
`random.shuffle`, a chooser function for the disproof card choice).
-/

namespace Clue

/-- Status of a card in relation to a player/envelope (`CardStatus` in notebook.py). -/
inductive CardStatus where
  | UNKNOWN
  | HAS
  | NOT_HAS
deriving DecidableEq, Repr

open CardStatus

/-- A Clue game card (`Card` dataclass): equality is by (name, card_type). -/
structure Card where
  name : String
  card_type : String
deriving DecidableEq, Repr

/-- One row of the notebook grid (`NotebookEntry`): one card's status for every
player plus the envelope.  `player_status` is the Python dict as an association list. -/
structure NotebookEntry where
  card_name : String
  card_type : String
  player_status : List (String × CardStatus)
  envelope_status : CardStatus
deriving DecidableEq, Repr

/-- The per-player deduction grid (`DetectiveNotebook`); the textual logs
(`suggestion_log`, `turn_log`) are pure logging and are not modelled. -/
structure Notebook where
  owner_name : String
  all_players : List String
  entries : List NotebookEntry
deriving DecidableEq, Repr

/-- The six suspect card names, in the order `_init_cards` lists them. -/
def suspectNames : List String :=
  ["Miss Scarlet", "Colonel Mustard", "Mrs. White",
   "Mr. Green", "Mrs. Peacock", "Professor Plum"]

/-- The six weapon card names, in the order `_init_cards` lists them. -/
def weaponNames : List String :=
  ["Candlestick", "Knife", "Lead Pipe", "Revolver", "Rope", "Wrench"]

/-- The nine room card names, in the order `_init_cards` lists them. -/
def roomNames : List String :=
  ["Kitchen", "Ballroom", "Conservatory", "Billiard Room",
   "Library", "Study", "Hall", "Lounge", "Dining Room"]

/-- Source `_add_card`: a fresh entry with every player Unknown. -/
def mkEntry (players : List String) (n t : String) : NotebookEntry :=
  { card_name := n, card_type := t
    player_status := players.map (fun p => (p, UNKNOWN))
    envelope_status := UNKNOWN }

/-- Source `_init_cards` / `DetectiveNotebook.__init__`: the full 21-entry grid. -/
def initNotebook (owner : String) (players : List String) : Notebook :=
  { owner_name := owner
    all_players := players
    entries :=
      suspectNames.map (mkEntry players · "suspect") ++
      weaponNames.map (mkEntry players · "weapon") ++
      roomNames.map (mkEntry players · "room") }

/-- Dict assignment `d[p] = st` on an association list (updates existing key only,
matching the initialised notebooks whose key set is fixed at `all_players`). -/
def setStatus (ps : List (String × CardStatus)) (p : String) (st : CardStatus) :
    List (String × CardStatus) :=
  ps.map (fun q => if q.1 = p then (q.1, st) else q)

/-- Dict read `d.get(p)` on an association list. -/
def getStatus (ps : List (String × CardStatus)) (p : String) : Option CardStatus :=
  (ps.find? (fun q => q.1 = p)).map (·.2)

/-- One pass of the deduction loop body over a single entry
(the two deductions of `_check_deductions`, which act entry-locally:
deduction 1 sets the envelope to Has when every player cell is NotHas, and
deduction 2 forces every player cell to NotHas when the envelope is Has,
including an envelope set earlier in the same pass). -/
def stepEntry (e : NotebookEntry) : NotebookEntry :=
  if e.envelope_status = UNKNOWN ∧ e.player_status.all (fun q => q.2 = NOT_HAS) then
    { e with envelope_status := HAS
             player_status := e.player_status.map (fun q => (q.1, NOT_HAS)) }
  else if e.envelope_status = HAS then
    { e with player_status := e.player_status.map (fun q => (q.1, NOT_HAS)) }
  else e

/-- One full `while` pass of `_check_deductions` over the grid. -/
def stepAll (nb : Notebook) : Notebook :=
  { nb with entries := nb.entries.map stepEntry }

/-- The `while changed` loop, with explicit pass budget. -/
def checkDeductionsF : Nat → Notebook → Notebook
  | 0, nb => nb
  | fuel + 1, nb =>
      if stepAll nb = nb then nb else checkDeductionsF fuel (stepAll nb)

/-- Source `_check_deductions`: the deductions are entry-local and a single pass is
already a fixed point (proved below as `stepAll_idem`), so the Python loop
runs at most two passes; two units of pass budget therefore reproduce it exactly. -/
def checkDeductions (nb : Notebook) : Notebook :=
  checkDeductionsF 2 nb

/-- The per-entry effect of `mark_card` on the marked card's entry: owner gets
Has (or the envelope when the owner is the envelope), every other player NotHas,
envelope NotHas when the owner is a player. -/
def markCardUpd (allP : List String) (card_name player_name : String)
    (e : NotebookEntry) : NotebookEntry :=
  if e.card_name = card_name then
    let e1 :=
      if (e.player_status.find? (fun q => q.1 = player_name)).isSome then
        { e with player_status := setStatus e.player_status player_name HAS }
      else
        { e with envelope_status := HAS }
    let ps2 :=
      allP.foldl
        (fun ps other =>
          if other ≠ player_name then setStatus ps other NOT_HAS else ps)
        e1.player_status
    let e2 := { e1 with player_status := ps2 }
    if player_name ≠ "ENVELOPE" then { e2 with envelope_status := NOT_HAS }
    else e2
  else e

/-- Source `mark_card(card_name, player_name)`: unknown card or owner names are
reported and leave the grid unchanged; otherwise apply `markCardUpd` and
propagate. -/
def markCard (nb : Notebook) (card_name player_name : String) : Notebook :=
  match nb.entries.find? (fun e => e.card_name = card_name) with
  | none => nb
  | some entry =>
      if (entry.player_status.find? (fun q => q.1 = player_name)).isSome ∨
             player_name.toUpper = "ENVELOPE" then
        checkDeductions
          { nb with entries := nb.entries.map (markCardUpd nb.all_players card_name player_name) }
      else nb

/-- Source `mark_not_has(card_name, player_name)`: one cell to NotHas; then propagate. -/
def markNotHas (nb : Notebook) (card_name player_name : String) : Notebook :=
  match nb.entries.find? (fun e => e.card_name = card_name) with
  | none => nb
  | some entry =>
      if (entry.player_status.find? (fun q => q.1 = player_name)).isSome then
        checkDeductions
          { nb with entries := nb.entries.map (fun e =>
              if e.card_name = card_name then
                { e with player_status := setStatus e.player_status player_name NOT_HAS }
              else e) }
      else nb

/-- Python truthiness of an optional-string value (None and "" are falsy). -/
def pyTruthy : Option String → Bool
  | none => false
  | some s => !s.isEmpty

/-- One card of the `for card in [suspect, weapon, room]` body of
`record_suggestion`'s passed-players loop; `none` models the `KeyError`
Python raises on `self.entries[card]` for an unknown card name. -/
def passedCardStep (nb : Notebook) (p card : String) : Option Notebook :=
  match nb.entries.find? (fun e => e.card_name = card) with
  | none => none
  | some e =>
      some (if getStatus e.player_status p = some UNKNOWN
            then markNotHas nb card p else nb)

/-- The inner card loop for one passed player; the Bool is false when the
Python loop would have raised (aborting with the updates made so far). -/
def passedCards : Notebook → String → List String → Notebook × Bool
  | nb, _, [] => (nb, true)
  | nb, p, c :: cs =>
      match passedCardStep nb p c with
      | none => (nb, false)
      | some nb' => passedCards nb' p cs

/-- The outer loop over `players_who_passed`. -/
def passedPlayers : Notebook → List String → List String → Notebook × Bool
  | nb, [], _ => (nb, true)
  | nb, p :: ps, cards =>
      match passedCards nb p cards with
      | (nb', true) => passedPlayers nb' ps cards
      | (nb', false) => (nb', false)

/-- Source `record_suggestion`: mark the shown card if one was shown (Python's
`if card_shown and disprover`, a string-truthiness test), then mark every passed
player as lacking each still-Unknown suggested card, then propagate.  The log
appends are not modelled; a `KeyError` abort skips the final propagation. -/
def recordSuggestion (nb : Notebook) (suspect weapon room : String)
    (disprover card_shown : Option String) (players_passed : List String) : Notebook :=
  let nb1 :=
    if pyTruthy card_shown && pyTruthy disprover then
      markCard nb (card_shown.getD "") (disprover.getD "")
    else nb
  match passedPlayers nb1 players_passed [suspect, weapon, room] with
  | (nb2, true) => checkDeductions nb2
  | (nb2, false) => nb2

/-- The notebook mutators named by claim C3. -/
inductive NbOp where
  | mark (card p : String)
  | markNot (card p : String)
  | record (suspect weapon room : String) (disprover card_shown : Option String)
      (passed : List String)

/-- Run one notebook operation. -/
def applyOp : NbOp → Notebook → Notebook
  | NbOp.mark c p, nb => markCard nb c p
  | NbOp.markNot c p, nb => markNotHas nb c p
  | NbOp.record s w r d cs ps, nb => recordSuggestion nb s w r d cs ps

/-- Run a sequence of notebook operations. -/
def applyOps (ops : List NbOp) (nb : Notebook) : Notebook :=
  ops.foldl (fun nb op => applyOp op nb) nb

/-- Reading one player cell of the grid (Unknown when absent). -/
def cellStatus (nb : Notebook) (card p : String) : CardStatus :=
  match nb.entries.find? (fun e => e.card_name = card) with
  | none => UNKNOWN
  | some e => (getStatus e.player_status p).getD UNKNOWN

/-- Reading one envelope cell of the grid (Unknown when absent). -/
def envStatus (nb : Notebook) (card : String) : CardStatus :=
  match nb.entries.find? (fun e => e.card_name = card) with
  | none => UNKNOWN
  | some e => e.envelope_status

/-- One player cell of a single entry, as `record_suggestion` reads it. -/
def entryCell (e : NotebookEntry) (p : String) : CardStatus :=
  (getStatus e.player_status p).getD UNKNOWN

/-- Determined cells stay determined: no cell that is Has/NotHas in `nb`
is Unknown in `nb'`. -/
def detKept (nb nb' : Notebook) : Prop :=
  (∀ card p, cellStatus nb card p ≠ UNKNOWN → cellStatus nb' card p ≠ UNKNOWN) ∧
  (∀ card, envStatus nb card ≠ UNKNOWN → envStatus nb' card ≠ UNKNOWN)

theorem detKept_refl (nb : Notebook) : detKept nb nb :=
  ⟨fun _ _ h => h, fun _ h => h⟩

theorem detKept_trans {a b c : Notebook} (h1 : detKept a b) (h2 : detKept b c) :
    detKept a c :=
  ⟨fun card p h => h2.1 card p (h1.1 card p h),
   fun card h => h2.2 card (h1.2 card h)⟩

theorem getStatus_map_const (ps : List (String × CardStatus)) (p : String)
    (st : CardStatus) :
    getStatus (ps.map (fun q => (q.1, st))) p = (getStatus ps p).map (fun _ => st) := by
  induction ps with
  | nil => rfl
  | cons q ps ih =>
      by_cases h : q.1 = p
      · simp [getStatus, List.find?, h]
      · simpa [getStatus, List.find?, h] using ih

theorem getStatus_setStatus (ps : List (String × CardStatus)) (p' p : String)
    (st : CardStatus) :
    getStatus (setStatus ps p' st) p =
      (getStatus ps p).map (fun v => if p = p' then st else v) := by
  induction ps with
  | nil => rfl
  | cons q ps ih =>
      unfold setStatus at *
      simp only [List.map_cons]
      by_cases hqp' : q.1 = p'
      · rw [if_pos hqp']
        by_cases hqp : q.1 = p
        · have hpp' : p = p' := by rw [← hqp, hqp']
          unfold getStatus
          rw [List.find?_cons_of_pos _ (by simpa using hqp),
              List.find?_cons_of_pos _ (by simpa using hqp)]
          simp [hpp']
        · unfold getStatus at ih ⊢
          rw [List.find?_cons_of_neg _ (by simpa using hqp),
              List.find?_cons_of_neg _ (by simpa using hqp)]
          exact ih
      · rw [if_neg hqp']
        by_cases hqp : q.1 = p
        · have hpp' : ¬ p = p' := fun hc => hqp' (by rw [hqp, hc])
          unfold getStatus
          rw [List.find?_cons_of_pos _ (by simpa using hqp),
              List.find?_cons_of_pos _ (by simpa using hqp)]
          simp [hpp']
        · unfold getStatus at ih ⊢
          rw [List.find?_cons_of_neg _ (by simpa using hqp),
              List.find?_cons_of_neg _ (by simpa using hqp)]
          exact ih

/-- A player-status list keeps determined cells determined. -/
def psKept (ps ps' : List (String × CardStatus)) : Prop :=
  ∀ p, (getStatus ps p).getD UNKNOWN ≠ UNKNOWN → (getStatus ps' p).getD UNKNOWN ≠ UNKNOWN

theorem psKept_refl (ps : List (String × CardStatus)) : psKept ps ps := fun _ h => h

theorem psKept_trans {a b c : List (String × CardStatus)} (h1 : psKept a b)
    (h2 : psKept b c) : psKept a c := fun p h => h2 p (h1 p h)

theorem psKept_setStatus (ps : List (String × CardStatus)) (p' : String)
    (st : CardStatus) (hst : st ≠ UNKNOWN) : psKept ps (setStatus ps p' st) := by
  intro p h
  rw [getStatus_setStatus]
  cases hg : getStatus ps p with
  | none => rw [hg] at h; exact absurd rfl h
  | some v =>
      rw [hg] at h
      simp only [Option.map_some, Option.getD_some] at h ⊢
      by_cases hp : p = p'
      · simpa [hp] using hst
      · simpa [hp] using h

theorem psKept_map_const (ps : List (String × CardStatus)) (st : CardStatus)
    (hst : st ≠ UNKNOWN) : psKept ps (ps.map (fun q => (q.1, st))) := by
  intro p h
  rw [getStatus_map_const]
  cases hg : getStatus ps p with
  | none => rw [hg] at h; exact absurd rfl h
  | some v => simpa using hst

theorem psKept_foldl_setStatus (players : List String) (p0 : String) :
    ∀ ps : List (String × CardStatus),
      psKept ps (players.foldl
        (fun ps other => if other ≠ p0 then setStatus ps other NOT_HAS else ps) ps) := by
  induction players with
  | nil => intro ps; exact psKept_refl ps
  | cons q players ih =>
      intro ps
      simp only [List.foldl_cons]
      by_cases hq : q ≠ p0
      · rw [if_pos hq]
        exact psKept_trans (psKept_setStatus ps q NOT_HAS (by simp)) (ih _)
      · rw [if_neg hq]
        exact ih ps

theorem find?_map_name (l : List NotebookEntry) (f : NotebookEntry → NotebookEntry)
    (hf : ∀ e, (f e).card_name = e.card_name) (c : String) :
    (l.map f).find? (fun e => e.card_name = c) =
      (l.find? (fun e => e.card_name = c)).map f := by
  induction l with
  | nil => rfl
  | cons x l ih =>
      by_cases hx : x.card_name = c
      · simp [List.find?, hf x, hx]
      · simpa [List.find?, hf x, hx] using ih

theorem detKept_mapEntries (nb : Notebook) (f : NotebookEntry → NotebookEntry)
    (hname : ∀ e, (f e).card_name = e.card_name)
    (hcell : ∀ e p, entryCell e p ≠ UNKNOWN → entryCell (f e) p ≠ UNKNOWN)
    (henv : ∀ e, e.envelope_status ≠ UNKNOWN → (f e).envelope_status ≠ UNKNOWN) :
    detKept nb { nb with entries := nb.entries.map f } := by
  constructor
  · intro card p h
    unfold cellStatus at h ⊢
    simp only [find?_map_name nb.entries f hname card]
    cases hg : nb.entries.find? (fun e => e.card_name = card) with
    | none => rw [hg] at h; exact absurd rfl h
    | some e =>
        rw [hg] at h
        exact hcell e p h
  · intro card h
    unfold envStatus at h ⊢
    simp only [find?_map_name nb.entries f hname card]
    cases hg : nb.entries.find? (fun e => e.card_name = card) with
    | none => rw [hg] at h; exact absurd rfl h
    | some e =>
        rw [hg] at h
        exact henv e h

theorem stepEntry_cell (e : NotebookEntry) (p : String)
    (h : entryCell e p ≠ UNKNOWN) : entryCell (stepEntry e) p ≠ UNKNOWN := by
  unfold stepEntry
  by_cases h1 : e.envelope_status = UNKNOWN ∧ e.player_status.all (fun q => q.2 = NOT_HAS)
  · rw [if_pos h1]
    exact psKept_map_const e.player_status NOT_HAS (by simp) p h
  · rw [if_neg h1]
    by_cases h2 : e.envelope_status = HAS
    · rw [if_pos h2]
      exact psKept_map_const e.player_status NOT_HAS (by simp) p h
    · rw [if_neg h2]; exact h

theorem stepEntry_env (e : NotebookEntry)
    (h : e.envelope_status ≠ UNKNOWN) : (stepEntry e).envelope_status ≠ UNKNOWN := by
  unfold stepEntry
  by_cases h1 : e.envelope_status = UNKNOWN ∧ e.player_status.all (fun q => q.2 = NOT_HAS)
  · rw [if_pos h1]; simp
  · rw [if_neg h1]
    by_cases h2 : e.envelope_status = HAS
    · rw [if_pos h2]; exact h
    · rw [if_neg h2]; exact h

theorem detKept_stepAll (nb : Notebook) : detKept nb (stepAll nb) :=
  detKept_mapEntries nb stepEntry (fun e => by unfold stepEntry; split <;> try split
                                               all_goals rfl)
    stepEntry_cell stepEntry_env

theorem stepEntry_idem (e : NotebookEntry) : stepEntry (stepEntry e) = stepEntry e := by
  by_cases h1 : e.envelope_status = UNKNOWN ∧ e.player_status.all (fun q => q.2 = NOT_HAS)
  · simp [stepEntry, h1, List.map_map, Function.comp]
  · by_cases h2 : e.envelope_status = HAS
    · simp [stepEntry, h1, h2, List.map_map, Function.comp]
    · have he : stepEntry e = e := by
        unfold stepEntry
        rw [if_neg h1, if_neg h2]
      simp [he]

theorem stepAll_idem (nb : Notebook) : stepAll (stepAll nb) = stepAll nb := by
  unfold stepAll
  simp [List.map_map, Function.comp_def, stepEntry_idem]

theorem checkDeductionsF_two (nb : Notebook) :
    checkDeductionsF 2 nb = if stepAll nb = nb then nb else stepAll nb := by
  by_cases h : stepAll nb = nb
  · simp [checkDeductionsF, h]
  · simp [checkDeductionsF, h, stepAll_idem]

theorem detKept_checkDeductions (nb : Notebook) : detKept nb (checkDeductions nb) := by
  unfold checkDeductions
  rw [checkDeductionsF_two]
  by_cases h : stepAll nb = nb
  · rw [if_pos h]; exact detKept_refl nb
  · rw [if_neg h]; exact detKept_stepAll nb

theorem checkDeductions_idem (nb : Notebook) :
    checkDeductions (checkDeductions nb) = checkDeductions nb := by
  unfold checkDeductions
  rw [checkDeductionsF_two, checkDeductionsF_two]
  by_cases h : stepAll nb = nb
  · simp [h]
  · simp [h, stepAll_idem]

theorem markCardUpd_eq (allP : List String) (c p : String) (e : NotebookEntry) :
    markCardUpd allP c p e =
      if e.card_name = c then
        { card_name := e.card_name, card_type := e.card_type
          player_status :=
            allP.foldl
              (fun ps other => if other ≠ p then setStatus ps other NOT_HAS else ps)
              (if (e.player_status.find? (fun q => q.1 = p)).isSome then
                setStatus e.player_status p HAS
              else e.player_status)
          envelope_status :=
            if p ≠ "ENVELOPE" then NOT_HAS
            else if (e.player_status.find? (fun q => q.1 = p)).isSome then
              e.envelope_status
            else HAS }
      else e := by
  unfold markCardUpd
  by_cases hc : e.card_name = c
  · rw [if_pos hc, if_pos hc]
    by_cases hf : (e.player_status.find? (fun q => q.1 = p)).isSome <;>
      by_cases hEnv : p ≠ "ENVELOPE" <;> simp [hf, hEnv]
  · rw [if_neg hc, if_neg hc]

theorem markCardUpd_name (allP : List String) (c p : String) (e : NotebookEntry) :
    (markCardUpd allP c p e).card_name = e.card_name := by
  rw [markCardUpd_eq]
  by_cases h : e.card_name = c <;> simp [h]

theorem markCardUpd_cell (allP : List String) (c p : String) (e : NotebookEntry)
    (p0 : String) (h : entryCell e p0 ≠ UNKNOWN) :
    entryCell (markCardUpd allP c p e) p0 ≠ UNKNOWN := by
  rw [markCardUpd_eq]
  by_cases hc : e.card_name = c
  · rw [if_pos hc]
    have h1 : psKept e.player_status
        (if (e.player_status.find? (fun q => q.1 = p)).isSome then
          setStatus e.player_status p HAS
        else e.player_status) := by
      by_cases hf : (e.player_status.find? (fun q => q.1 = p)).isSome
      · rw [if_pos hf]
        exact psKept_setStatus e.player_status p HAS (by simp)
      · rw [if_neg hf]
        exact psKept_refl e.player_status
    exact psKept_trans h1 (psKept_foldl_setStatus allP p _) p0 h
  · rw [if_neg hc]; exact h

theorem markCardUpd_env (allP : List String) (c p : String) (e : NotebookEntry)
    (h : e.envelope_status ≠ UNKNOWN) :
    (markCardUpd allP c p e).envelope_status ≠ UNKNOWN := by
  rw [markCardUpd_eq]
  by_cases hc : e.card_name = c
  · rw [if_pos hc]
    by_cases h1 : (e.player_status.find? (fun q => q.1 = p)).isSome <;>
      by_cases h2 : p ≠ "ENVELOPE" <;> simp [h1, h2, h]
  · rw [if_neg hc]; exact h

theorem detKept_markCard (nb : Notebook) (c p : String) :
    detKept nb (markCard nb c p) := by
  unfold markCard
  cases hf : nb.entries.find? (fun e => e.card_name = c) with
  | none => exact detKept_refl nb
  | some entry =>
      dsimp only
      by_cases hcond : (entry.player_status.find? (fun q => q.1 = p)).isSome ∨
          p.toUpper = "ENVELOPE"
      · rw [if_pos hcond]
        exact detKept_trans
          (detKept_mapEntries nb (markCardUpd nb.all_players c p)
            (markCardUpd_name nb.all_players c p)
            (markCardUpd_cell nb.all_players c p)
            (markCardUpd_env nb.all_players c p))
          (detKept_checkDeductions _)
      · rw [if_neg hcond]
        exact detKept_refl nb

theorem detKept_markNotHas (nb : Notebook) (c p : String) :
    detKept nb (markNotHas nb c p) := by
  unfold markNotHas
  cases hf : nb.entries.find? (fun e => e.card_name = c) with
  | none => exact detKept_refl nb
  | some entry =>
      dsimp only
      by_cases hcond : (entry.player_status.find? (fun q => q.1 = p)).isSome
      · rw [if_pos hcond]
        refine detKept_trans (detKept_mapEntries nb _ ?_ ?_ ?_) (detKept_checkDeductions _)
        · intro e
          by_cases he : e.card_name = c <;> simp [he]
        · intro e p0 h
          by_cases he : e.card_name = c
          · rw [if_pos he]
            exact psKept_setStatus e.player_status p NOT_HAS (by simp) p0 h
          · rw [if_neg he]; exact h
        · intro e h
          by_cases he : e.card_name = c <;> simp [he, h]
      · rw [if_neg hcond]
        exact detKept_refl nb

theorem detKept_passedCards (p : String) (cs : List String) :
    ∀ nb : Notebook, detKept nb (passedCards nb p cs).1 := by
  induction cs with
  | nil => intro nb; exact detKept_refl nb
  | cons c cs ih =>
      intro nb
      unfold passedCards passedCardStep
      cases hf : nb.entries.find? (fun e => e.card_name = c) with
      | none => exact detKept_refl nb
      | some e =>
          by_cases hu : getStatus e.player_status p = some UNKNOWN
          · simpa [hu] using detKept_trans (detKept_markNotHas nb c p) (ih _)
          · simpa [hu] using detKept_trans (detKept_refl nb) (ih nb)

theorem detKept_passedPlayers (cards : List String) :
    ∀ (players : List String) (nb : Notebook),
      detKept nb (passedPlayers nb players cards).1 := by
  intro players
  induction players with
  | nil => intro nb; exact detKept_refl nb
  | cons p ps ih =>
      intro nb
      unfold passedPlayers
      cases hc : passedCards nb p cards with
      | mk nb' ok =>
          have hk : detKept nb nb' := by
            have := detKept_passedCards p cards nb
            rw [hc] at this
            exact this
          cases ok with
          | true => exact detKept_trans hk (ih nb')
          | false => exact hk

theorem detKept_passedTail (M : Notebook) (pp cards : List String) :
    detKept M
      (match passedPlayers M pp cards with
       | (nb2, true) => checkDeductions nb2
       | (nb2, false) => nb2) := by
  cases hp : passedPlayers M pp cards with
  | mk nb2 ok =>
      have h2 : detKept M nb2 := by
        have := detKept_passedPlayers cards pp M
        rw [hp] at this
        exact this
      cases ok with
      | true => exact detKept_trans h2 (detKept_checkDeductions nb2)
      | false => exact h2

theorem detKept_recordSuggestion (nb : Notebook) (s w r : String)
    (d cs : Option String) (pp : List String) :
    detKept nb (recordSuggestion nb s w r d cs pp) := by
  unfold recordSuggestion
  dsimp only
  by_cases hc : (pyTruthy cs && pyTruthy d) = true
  · rw [if_pos hc]
    exact detKept_trans (detKept_markCard nb (cs.getD "") (d.getD ""))
      (detKept_passedTail _ pp [s, w, r])
  · rw [if_neg hc]
    exact detKept_passedTail nb pp [s, w, r]

theorem detKept_applyOp (op : NbOp) (nb : Notebook) : detKept nb (applyOp op nb) := by
  cases op with
  | mark c p => exact detKept_markCard nb c p
  | markNot c p => exact detKept_markNotHas nb c p
  | record s w r d cs pp => exact detKept_recordSuggestion nb s w r d cs pp

theorem detKept_applyOps (ops : List NbOp) :
    ∀ nb : Notebook, detKept nb (applyOps ops nb) := by
  induction ops with
  | nil => intro nb; exact detKept_refl nb
  | cons op ops ih =>
      intro nb
      exact detKept_trans (detKept_applyOp op nb) (ih (applyOp op nb))

/-- Claim C3, amended.  Two true halves of the claim: (1) the propagation pass
`_check_deductions` is idempotent — re-running it on a grid it has already
stabilised changes no cell; (2) across every sequence of notebook operations
(`mark_card` / `mark_not_has` / `record_suggestion`), a cell that holds
Has or DoesNotHave never reverts to Unknown.  (The claim's stronger
monotonicity — a determined cell never changes at all — fails: `mark_card`
overwrites determined cells, see the counterexample.) -/
theorem C3_propagation_idempotent_and_no_unknown_reversion :
    (∀ nb : Notebook, checkDeductions (checkDeductions nb) = checkDeductions nb) ∧
    (∀ (ops : List NbOp) (nb : Notebook) (card p : String),
      (cellStatus nb card p ≠ UNKNOWN → cellStatus (applyOps ops nb) card p ≠ UNKNOWN) ∧
      (envStatus nb card ≠ UNKNOWN → envStatus (applyOps ops nb) card ≠ UNKNOWN)) :=
  ⟨checkDeductions_idem,
   fun ops nb card p =>
     ⟨fun h => (detKept_applyOps ops nb).1 card p h,
      fun h => (detKept_applyOps ops nb).2 card h⟩⟩

/-- Witness for C3 (amended) at concrete inputs: the propagation pass is
idempotent on a freshly initialised grid, and a cell determined by `mark_card`
is still determined after a further operation. -/
theorem C3_propagation_idempotent_and_no_unknown_reversion_witness :
    checkDeductions (checkDeductions (initNotebook "Me" ["A", "B"])) =
      checkDeductions (initNotebook "Me" ["A", "B"]) ∧
    cellStatus
      (applyOps [NbOp.markNot "Rope" "B"]
        (markCard (initNotebook "Me" ["A", "B"]) "Knife" "A")) "Knife" "A" ≠ UNKNOWN :=
  ⟨C3_propagation_idempotent_and_no_unknown_reversion.1 (initNotebook "Me" ["A", "B"]),
   (C3_propagation_idempotent_and_no_unknown_reversion.2 [NbOp.markNot "Rope" "B"]
      (markCard (initNotebook "Me" ["A", "B"]) "Knife" "A") "Knife" "A").1 (by decide)⟩

/-- Counterexample to claim C3 as stated: after `mark_card("Knife", "A")` the
cell (Knife, A) holds Has, but the subsequent operation `mark_card("Knife", "B")`
changes it to DoesNotHave — a determined cell does not stay fixed under every
sequence of notebook operations. -/
theorem C3_monotonicity_counterexample :
    cellStatus (markCard (initNotebook "Me" ["A", "B"]) "Knife" "A") "Knife" "A" = HAS ∧
    cellStatus (markCard (markCard (initNotebook "Me" ["A", "B"]) "Knife" "A")
        "Knife" "B") "Knife" "A" = NOT_HAS := by
  decide

/-- The `confirmed[card_type] = card_name` loop of `get_accusation_recommendation`:
the last envelope-Has entry of the category wins (dict overwrite). -/
def confirmedOf (nb : Notebook) (cat : String) : Option String :=
  nb.entries.foldl
    (fun acc e =>
      if e.card_type = cat ∧ e.envelope_status = HAS then some e.card_name else acc)
    none

/-- The `possible[card_type].append(card_name)` loop of
`get_accusation_recommendation`: entries of the category whose envelope status is
neither Has (the `elif`) nor NotHas, and which no player is confirmed to hold. -/
def possibleOf (nb : Notebook) (cat : String) : List String :=
  (nb.entries.filter (fun e =>
      e.card_type = cat ∧ e.envelope_status ≠ HAS ∧ e.envelope_status ≠ NOT_HAS ∧
        ¬ e.player_status.any (fun q => q.2 = HAS))).map (·.card_name)

/-- The `can_accuse` boolean computed identically by
`get_accusation_recommendation` and `get_possible_solution`. -/
def canAccuse (nb : Notebook) : Bool :=
  (pyTruthy (confirmedOf nb "suspect") || (possibleOf nb "suspect").length == 1) &&
  ((pyTruthy (confirmedOf nb "weapon") || (possibleOf nb "weapon").length == 1) &&
   (pyTruthy (confirmedOf nb "room") || (possibleOf nb "room").length == 1))

/-- Surviving candidates of a category in the sense of claim C4: envelope status
not DoesNotHave and no player confirmed to have the card. -/
def survivingOf (nb : Notebook) (cat : String) : List String :=
  (nb.entries.filter (fun e =>
      e.card_type = cat ∧ e.envelope_status ≠ NOT_HAS ∧
        ¬ e.player_status.any (fun q => q.2 = HAS))).map (·.card_name)

/-- Claim C4's notion of a category being narrowed to exactly one candidate:
either some card of the category is envelope-confirmed (then it is the sole
candidate by fiat) or exactly one surviving candidate remains. -/
def oneCandidate (nb : Notebook) (cat : String) : Prop :=
  (∃ e ∈ nb.entries, e.card_type = cat ∧ e.envelope_status = HAS) ∨
    (survivingOf nb cat).length = 1

instance (nb : Notebook) (cat : String) : Decidable (oneCandidate nb cat) := by
  unfold oneCandidate
  infer_instance

theorem confirmedOf_foldl_spec (cat : String) (l : List NotebookEntry) :
    ∀ acc : Option String,
      (l.foldl
        (fun acc e =>
          if e.card_type = cat ∧ e.envelope_status = HAS then some e.card_name else acc)
        acc = acc ∧ ∀ e ∈ l, ¬(e.card_type = cat ∧ e.envelope_status = HAS)) ∨
      (∃ e ∈ l, (e.card_type = cat ∧ e.envelope_status = HAS) ∧
        l.foldl
          (fun acc e =>
            if e.card_type = cat ∧ e.envelope_status = HAS then some e.card_name else acc)
          acc = some e.card_name) := by
  induction l with
  | nil => intro acc; left; simp
  | cons x l ih =>
      intro acc
      by_cases hx : x.card_type = cat ∧ x.envelope_status = HAS
      · rcases ih (some x.card_name) with ⟨heq, hall⟩ | ⟨e, he, hce, heq⟩
        · right
          refine ⟨x, List.mem_cons_self x l, hx, ?_⟩
          simpa [List.foldl_cons, if_pos hx] using heq
        · right
          refine ⟨e, List.mem_cons_of_mem x he, hce, ?_⟩
          simpa [List.foldl_cons, if_pos hx] using heq
      · rcases ih acc with ⟨heq, hall⟩ | ⟨e, he, hce, heq⟩
        · left
          constructor
          · simpa [List.foldl_cons, if_neg hx] using heq
          · intro e he
            rcases List.mem_cons.mp he with rfl | he
            · exact hx
            · exact hall e he
        · right
          refine ⟨e, List.mem_cons_of_mem x he, hce, ?_⟩
          simpa [List.foldl_cons, if_neg hx] using heq

theorem pyTruthy_confirmedOf (nb : Notebook) (cat : String)
    (hne : ∀ e ∈ nb.entries, ¬ e.card_name.isEmpty = true) :
    pyTruthy (confirmedOf nb cat) = true ↔
      ∃ e ∈ nb.entries, e.card_type = cat ∧ e.envelope_status = HAS := by
  unfold confirmedOf
  rcases confirmedOf_foldl_spec cat nb.entries none with ⟨heq, hall⟩ | ⟨e, he, hce, heq⟩
  · rw [heq]
    simp only [pyTruthy]
    constructor
    · intro h; cases h
    · rintro ⟨e, he, hc⟩; exact absurd hc (hall e he)
  · rw [heq]
    simp only [pyTruthy]
    constructor
    · intro _; exact ⟨e, he, hce⟩
    · intro _
      simpa using hne e he

theorem possibleOf_eq_survivingOf (nb : Notebook) (cat : String)
    (hno : ¬ ∃ e ∈ nb.entries, e.card_type = cat ∧ e.envelope_status = HAS) :
    possibleOf nb cat = survivingOf nb cat := by
  unfold possibleOf survivingOf
  congr 1
  apply List.filter_congr
  intro e he
  by_cases ht : e.card_type = cat
  · have : e.envelope_status ≠ HAS := fun hc => hno ⟨e, he, ht, hc⟩
    simp [ht, this]
  · simp [ht]

theorem oneCandidate_iff (nb : Notebook) (cat : String)
    (hne : ∀ e ∈ nb.entries, ¬ e.card_name.isEmpty = true) :
    (pyTruthy (confirmedOf nb cat) || (possibleOf nb cat).length == 1) = true ↔
      oneCandidate nb cat := by
  unfold oneCandidate
  by_cases hex : ∃ e ∈ nb.entries, e.card_type = cat ∧ e.envelope_status = HAS
  · have : pyTruthy (confirmedOf nb cat) = true := (pyTruthy_confirmedOf nb cat hne).mpr hex
    simp [this, hex]
  · have : pyTruthy (confirmedOf nb cat) ≠ true := fun h =>
      hex ((pyTruthy_confirmedOf nb cat hne).mp h)
    simp only [Bool.or_eq_true, beq_iff_eq, this, false_or]
    rw [possibleOf_eq_survivingOf nb cat hex]
    simp [hex]

/-- Claim C4: `get_accusation_recommendation` (and `get_possible_solution`)
report an accusable state exactly when each of the three categories has exactly
one surviving candidate, an envelope-confirmed card counting as the sole
candidate of its category.  Stated for every grid whose card names are nonempty
strings (every notebook the program builds satisfies this). -/
theorem C4_canAccuse_iff_one_candidate_each (nb : Notebook)
    (hne : ∀ e ∈ nb.entries, ¬ e.card_name.isEmpty = true) :
    canAccuse nb = true ↔
      ∀ cat ∈ (["suspect", "weapon", "room"] : List String), oneCandidate nb cat := by
  unfold canAccuse
  simp only [Bool.and_eq_true]
  rw [oneCandidate_iff nb "suspect" hne, oneCandidate_iff nb "weapon" hne,
      oneCandidate_iff nb "room" hne]
  constructor
  · rintro ⟨h1, h2, h3⟩ cat hc
    rcases List.mem_cons.mp hc with rfl | hc
    · exact h1
    rcases List.mem_cons.mp hc with rfl | hc
    · exact h2
    rcases List.mem_cons.mp hc with rfl | hc
    · exact h3
    · cases hc
  · intro h
    exact ⟨h "suspect" (by simp), h "weapon" (by simp), h "room" (by simp)⟩

/-- Witness for C4 at a concrete grid (a freshly initialised two-player notebook). -/
theorem C4_canAccuse_iff_one_candidate_each_witness :
    canAccuse (initNotebook "Me" ["A", "B"]) = true ↔
      ∀ cat ∈ (["suspect", "weapon", "room"] : List String),
        oneCandidate (initNotebook "Me" ["A", "B"]) cat :=
  C4_canAccuse_iff_one_candidate_each (initNotebook "Me" ["A", "B"]) (by decide)

/-- The `Suspect` enum. -/
inductive Suspect where
  | MISS_SCARLET | COLONEL_MUSTARD | MRS_WHITE | MR_GREEN | MRS_PEACOCK | PROFESSOR_PLUM
deriving DecidableEq, Repr

/-- The display value of a suspect. -/
def Suspect.value : Suspect → String
  | .MISS_SCARLET => "Miss Scarlet"
  | .COLONEL_MUSTARD => "Colonel Mustard"
  | .MRS_WHITE => "Mrs. White"
  | .MR_GREEN => "Mr. Green"
  | .MRS_PEACOCK => "Mrs. Peacock"
  | .PROFESSOR_PLUM => "Professor Plum"

/-- The `Weapon` enum. -/
inductive Weapon where
  | CANDLESTICK | KNIFE | LEAD_PIPE | REVOLVER | ROPE | WRENCH
deriving DecidableEq, Repr

/-- The display value of a weapon. -/
def Weapon.value : Weapon → String
  | .CANDLESTICK => "Candlestick"
  | .KNIFE => "Knife"
  | .LEAD_PIPE => "Lead Pipe"
  | .REVOLVER => "Revolver"
  | .ROPE => "Rope"
  | .WRENCH => "Wrench"

/-- The `Room` enum. -/
inductive Room where
  | KITCHEN | BALLROOM | CONSERVATORY | BILLIARD_ROOM | LIBRARY
  | STUDY | HALL | LOUNGE | DINING_ROOM
deriving DecidableEq, Repr

/-- The display value of a room. -/
def Room.value : Room → String
  | .KITCHEN => "Kitchen"
  | .BALLROOM => "Ballroom"
  | .CONSERVATORY => "Conservatory"
  | .BILLIARD_ROOM => "Billiard Room"
  | .LIBRARY => "Library"
  | .STUDY => "Study"
  | .HALL => "Hall"
  | .LOUNGE => "Lounge"
  | .DINING_ROOM => "Dining Room"

/-- Declaration order of the enums (used for card building and name parsing). -/
def suspectList : List Suspect :=
  [.MISS_SCARLET, .COLONEL_MUSTARD, .MRS_WHITE, .MR_GREEN, .MRS_PEACOCK, .PROFESSOR_PLUM]

/-- Declaration order of the `Weapon` enum. -/
def weaponList : List Weapon :=
  [.CANDLESTICK, .KNIFE, .LEAD_PIPE, .REVOLVER, .ROPE, .WRENCH]

/-- Declaration order of the `Room` enum. -/
def roomList : List Room :=
  [.KITCHEN, .BALLROOM, .CONSERVATORY, .BILLIARD_ROOM, .LIBRARY,
   .STUDY, .HALL, .LOUNGE, .DINING_ROOM]

/-- Cell types for the board grid (`CellType`). -/
inductive CellType where
  | WALL | HALLWAY | ROOM | DOOR | START
deriving DecidableEq, Repr

/-- Source `BOARD_LAYOUT`: the 25-row board, copied verbatim. -/
def BOARD_LAYOUT : List String :=
  [ "WWWWWWWWWW3WWWWW4WWWWWWWW",
    "KKKKKK.WHHHHHHHHWW.CCCCCC",
    "KKKKKK.HHHWWWWWWHH.CCCCCC",
    "KKKKKK.HHWWBBBBWWH.CCCCCC",
    "KKKKKK.HHWBBBBBBWH.CCCCCC",
    "KKKKKK.HHbBBBBBBbH.CCCCCc",
    "WWWWWWkHHWBBBBBBWHHHHHHHW",
    "HHHHHHHHHWWWWWWWWHHHHHHH5",
    "W.HHHHHHHHHHHHHHHHHHHHHHW",
    "DDDDDD.HHHHHHHHHHHHW.IIII",
    "DDDDDD.HHHHHHHHHHHHW.IIII",
    "DDDDDD.HHHHHHHHHHHHW.IIII",
    "DDDDDDdHHWWWWWWWWHHiIIIII",
    "DDDDDD.HHWAAAAAWHHHHIIIII",
    "DDDDDD.HHaAAAAAaHHHHWiWWW",
    "WWWWWW.HHWAAAAAAWHHHHHHHH",
    "WHHHHHHHHHWAAAAAWHHHHHHH6",
    "W.HHHHHHHHWAAAAAAWHHHHHWW",
    "OOOOOOoHHWWWWaWWWHH.LLLLL",
    "OOOOOOO.HHHHHHHHHHH.LLLLL",
    "OOOOOOO.HHWWWWWWWHH.LLLLl",
    "OOOOOOO.HHWSSSSSWHHlLLLLL",
    "OOOOOOO.HHWSSSSSWHH.LLLLL",
    "WWWWWWW2HHsSSSSSsHHWWWWWW",
    "WWWWWWWWWHHH1HHHHHWWWWWWW" ]

/-- Source `ROOM_CODES`: the room a board character stands for. -/
def roomCode : Char → Option Room
  | 'K' => some .KITCHEN
  | 'B' => some .BALLROOM
  | 'C' => some .CONSERVATORY
  | 'D' => some .DINING_ROOM
  | 'I' => some .BILLIARD_ROOM
  | 'L' => some .LIBRARY
  | 'O' => some .LOUNGE
  | 'A' => some .HALL
  | 'S' => some .STUDY
  | _ => none

/-- Source `BOARD_HEIGHT` (rows 0-24). -/
def BOARD_HEIGHT : Int := 25

/-- Source `BOARD_WIDTH` (columns 0-23). -/
def BOARD_WIDTH : Int := 24

/-- Source `get_cell_type(row, col)`: out-of-bounds positions are walls. -/
def getCellType (row col : Int) : CellType × Option Room :=
  if row < 0 ∨ BOARD_HEIGHT ≤ row ∨ col < 0 ∨ BOARD_WIDTH ≤ col then
    (CellType.WALL, none)
  else
    let c := ((BOARD_LAYOUT.getD row.toNat "").toList.getD col.toNat 'W')
    if c = 'W' then (CellType.WALL, none)
    else if c = 'H' ∨ c = '.' then (CellType.HALLWAY, none)
    else if c ∈ ['1', '2', '3', '4', '5', '6'] then (CellType.START, none)
    else if c.isUpper ∧ (roomCode c).isSome then (CellType.ROOM, roomCode c)
    else if c.isLower ∧ (roomCode c.toUpper).isSome then (CellType.DOOR, roomCode c.toUpper)
    else (CellType.HALLWAY, none)

/-- Source `DOOR_POSITIONS`: door cells and their rooms, in dict insertion order. -/
def DOOR_POSITIONS : List ((Int × Int) × Room) :=
  [ ((6, 6), .KITCHEN),
    ((5, 8), .BALLROOM), ((5, 15), .BALLROOM),
    ((5, 22), .CONSERVATORY),
    ((12, 6), .DINING_ROOM),
    ((12, 17), .BILLIARD_ROOM), ((14, 21), .BILLIARD_ROOM),
    ((14, 9), .HALL), ((14, 15), .HALL), ((18, 14), .HALL),
    ((18, 6), .LOUNGE),
    ((20, 22), .LIBRARY), ((21, 17), .LIBRARY),
    ((23, 9), .STUDY), ((23, 16), .STUDY) ]

/-- Source `STARTING_GRID_POSITIONS`. -/
def STARTING_GRID_POSITIONS : Suspect → Int × Int
  | .MISS_SCARLET => (24, 11)
  | .COLONEL_MUSTARD => (23, 7)
  | .MRS_WHITE => (0, 10)
  | .MR_GREEN => (0, 15)
  | .MRS_PEACOCK => (7, 23)
  | .PROFESSOR_PLUM => (16, 23)

/-- Source `get_adjacent_cells`: the four orthogonal neighbours, in source order. -/
def getAdjacentCells (row col : Int) : List (Int × Int) :=
  [(row - 1, col), (row + 1, col), (row, col - 1), (row, col + 1)]

/-- Source `ROOM_CONNECTIONS`: the legacy room-graph adjacency. -/
def ROOM_CONNECTIONS : Room → List Room
  | .KITCHEN => [.BALLROOM, .DINING_ROOM]
  | .BALLROOM => [.KITCHEN, .CONSERVATORY]
  | .CONSERVATORY => [.BALLROOM, .BILLIARD_ROOM]
  | .DINING_ROOM => [.KITCHEN, .LOUNGE]
  | .BILLIARD_ROOM => [.CONSERVATORY, .LIBRARY, .HALL]
  | .LIBRARY => [.BILLIARD_ROOM, .STUDY]
  | .LOUNGE => [.DINING_ROOM, .HALL]
  | .HALL => [.LOUNGE, .BILLIARD_ROOM, .STUDY]
  | .STUDY => [.HALL, .LIBRARY]

/-- Source `SECRET_PASSAGES`: corner-room shortcuts. -/
def SECRET_PASSAGES : Room → Option Room
  | .KITCHEN => some .STUDY
  | .STUDY => some .KITCHEN
  | .CONSERVATORY => some .LOUNGE
  | .LOUNGE => some .CONSERVATORY
  | _ => none

/-- Source `STARTING_POSITION_MOVES`: rooms reachable from each start square in the
legacy room-graph model. -/
def STARTING_POSITION_MOVES : Suspect → List Room
  | .MISS_SCARLET => [.HALL, .LOUNGE]
  | .COLONEL_MUSTARD => [.LOUNGE, .DINING_ROOM]
  | .MRS_WHITE => [.BALLROOM, .KITCHEN]
  | .MR_GREEN => [.CONSERVATORY, .BALLROOM]
  | .MRS_PEACOCK => [.CONSERVATORY, .LIBRARY]
  | .PROFESSOR_PLUM => [.LIBRARY, .STUDY]

/-- The `Player` dataclass.  The free-text `knowledge` dict is pure
bookkeeping for the language layer and is not modelled; `visited_this_turn`
is a Python set, modelled as a duplicate-free list. -/
structure Player where
  name : String
  character : Suspect
  cards : List Card := []
  current_room : Option Room := none
  is_active : Bool := true
  last_suggestion_room : Option Room := none
  has_moved_since_suggestion : Bool := true
  was_moved_by_suggestion : Bool := false
  has_accused_this_turn : Bool := false
  in_hallway : Bool := true
  entered_room_this_turn : Bool := false
  position : Option (Int × Int) := none
  moves_remaining : Nat := 0
  visited_this_turn : List (Int × Int) := []
deriving DecidableEq, Repr

/-- The `Suggestion` dataclass. -/
structure Suggestion where
  suggester : String
  suspect : String
  weapon : String
  room : String
  disproven_by : Option String := none
  card_shown : Option String := none
deriving DecidableEq, Repr

/-- The murder solution (`self.solution` dict with its three keys). -/
structure Solution where
  suspect : Card
  weapon : Card
  room : Card
deriving DecidableEq, Repr

/-- The `GameState` dataclass. -/
structure GameState where
  players : List Player
  solution : Solution
  current_player_index : Nat := 0
  turn_number : Nat := 1
  game_over : Bool := false
  winner : Option String := none
  suggestion_history : List Suggestion := []
deriving DecidableEq, Repr

/-- Python's `set.add` on the visited-squares set. -/
def visitedInsert (s : List (Int × Int)) (x : Int × Int) : List (Int × Int) :=
  if x ∈ s then s else s ++ [x]

/-- In-place mutation of the i-th player object of the players list. -/
def updateAt (i : Nat) (f : Player → Player) : List Player → List Player
  | [] => []
  | p :: ps =>
      match i with
      | 0 => f p :: ps
      | i + 1 => p :: updateAt i f ps

/-- Mutating the i-th player of a game state. -/
def updatePlayer (gs : GameState) (i : Nat) (f : Player → Player) : GameState :=
  { gs with players := updateAt i f gs.players }

/-- Source `get_occupied_positions(exclude_player)`: hallway positions of every other
player.  The Python identity test `p != exclude_player` is modelled by list
index (player objects in a real game are pairwise distinct). -/
def occupiedExcept (gs : GameState) (i : Nat) : List (Int × Int) :=
  gs.players.enum.filterMap
    (fun q => if q.1 ≠ i ∧ q.2.in_hallway then q.2.position else none)

/-- Source `can_move_to_cell(player, row, col, occupied)`. -/
def canMoveToCell (player : Player) (row col : Int)
    (occupied : List (Int × Int)) : Bool × Option Room :=
  if row < 0 ∨ BOARD_HEIGHT ≤ row ∨ col < 0 ∨ BOARD_WIDTH ≤ col then (false, none)
  else if (row, col) ∈ player.visited_this_turn then (false, none)
  else if (row, col) ∈ occupied then (false, none)
  else
    let (ct, room) := getCellType row col
    if ct = CellType.WALL ∨ ct = CellType.ROOM then (false, none)
    else if ct = CellType.DOOR then (true, room)
    else if ct = CellType.HALLWAY ∨ ct = CellType.START then (true, none)
    else (false, none)

/-- Source `move_player_one_step(player, row, col)`, returning the new state together
with the `(success, room_entered, message)` triple. -/
def movePlayerOneStep (gs : GameState) (i : Nat) (row col : Int) :
    GameState × Bool × Option Room × String :=
  match gs.players.get? i with
  | none => (gs, false, none, "No such player")
  | some player =>
      if player.moves_remaining = 0 then (gs, false, none, "No moves remaining")
      else
        match player.position with
        | none => (gs, false, none, "Player has no grid position (in room)")
        | some (crow, ccol) =>
            if (row - crow).natAbs + (col - ccol).natAbs ≠ 1 then
              (gs, false, none, "Can only move to adjacent squares (no diagonal)")
            else
              let occupied := occupiedExcept gs i
              let (canMove, room) := canMoveToCell player row col occupied
              if ¬canMove then
                if (row, col) ∈ player.visited_this_turn then
                  (gs, false, none, "Cannot visit the same square twice in one turn")
                else if (row, col) ∈ occupied then
                  (gs, false, none, "Square is occupied by another player")
                else
                  (gs, false, none, "Cannot move to that square (wall or room interior)")
              else
                let p1 := { player with
                  position := some (row, col)
                  visited_this_turn := visitedInsert player.visited_this_turn (row, col)
                  moves_remaining := player.moves_remaining - 1 }
                match room with
                | some rm =>
                    let p2 := { p1 with
                      current_room := some rm
                      in_hallway := false
                      position := none
                      moves_remaining := 0
                      has_moved_since_suggestion := true
                      was_moved_by_suggestion := false
                      entered_room_this_turn := true }
                    (updatePlayer gs i (fun _ => p2), true, some rm, "Entered room. Movement ends.")
                | none =>
                    (updatePlayer gs i (fun _ => p1), true, none, "Moved.")

/-- Source `exit_room_to_hallway(player, door_position)`. -/
def exitRoomToHallway (gs : GameState) (i : Nat) (door : Int × Int) :
    GameState × Bool :=
  match gs.players.get? i with
  | none => (gs, false)
  | some player =>
      match player.current_room with
      | none => (gs, false)
      | some cur =>
          let (ct, room) := getCellType door.1 door.2
          if ct ≠ CellType.DOOR ∨ room ≠ some cur then (gs, false)
          else if door ∈ occupiedExcept gs i then (gs, false)
          else
            let p' := { player with
              current_room := none
              in_hallway := true
              position := some door
              visited_this_turn := visitedInsert player.visited_this_turn door
              moves_remaining :=
                if 0 < player.moves_remaining then player.moves_remaining - 1
                else player.moves_remaining
              has_moved_since_suggestion := true
              was_moved_by_suggestion := false }
            (updatePlayer gs i (fun _ => p'), true)

/-- Source `get_room_doors(room)`. -/
def getRoomDoors (room : Room) : List (Int × Int) :=
  (DOOR_POSITIONS.filter (fun q => q.2 = room)).map (·.1)

/-- Source `use_secret_passage(player)`. -/
def useSecretPassage (gs : GameState) (i : Nat) : GameState × Bool × String :=
  match gs.players.get? i with
  | none => (gs, false, "No such player")
  | some player =>
      match player.current_room with
      | none => (gs, false, "Must be in a room to use secret passage")
      | some cur =>
          match SECRET_PASSAGES cur with
          | none => (gs, false, "room has no secret passage")
          | some dest =>
              let p' := { player with
                current_room := some dest
                in_hallway := false
                position := none
                moves_remaining := 0
                has_moved_since_suggestion := true
                was_moved_by_suggestion := false
                entered_room_this_turn := true }
              (updatePlayer gs i (fun _ => p'), true, "Used secret passage.")

/-- Source `get_available_moves(player)`: the legacy room-graph moves. -/
def getAvailableMoves (player : Player) : List Room :=
  if player.current_room = none ∨ player.in_hallway then
    STARTING_POSITION_MOVES player.character
  else
    match player.current_room with
    | some cur =>
        let avail := ROOM_CONNECTIONS cur
        match SECRET_PASSAGES cur with
        | some dest => if dest ∉ avail then avail ++ [dest] else avail
        | none => avail
    | none => []

/-- Source `move_player(player, room)`: the legacy room-graph move. -/
def movePlayer (gs : GameState) (i : Nat) (room : Room) : GameState × Bool :=
  match gs.players.get? i with
  | none => (gs, false)
  | some player =>
      if room ∈ getAvailableMoves player then
        let p' := { player with
          current_room := some room
          in_hallway := false
          position := none
          moves_remaining := 0
          has_moved_since_suggestion :=
            if player.current_room ≠ some room then true
            else player.has_moved_since_suggestion
          was_moved_by_suggestion :=
            if player.current_room ≠ some room then false
            else player.was_moved_by_suggestion }
        (updatePlayer gs i (fun _ => p'), true)
      else (gs, false)

/-- Source `start_turn(player, dice_total)`. -/
def startTurn (gs : GameState) (i : Nat) (dice_total : Nat) : GameState :=
  updatePlayer gs i (fun p =>
    { p with
      moves_remaining := dice_total
      visited_this_turn := match p.position with | some pos => [pos] | none => []
      entered_room_this_turn := false })

/-- The neighbour loop of one BFS dequeue in `get_reachable_rooms`: returns the
grown visited set, the grown result list, and the cells to enqueue.  A door
cell always carries a room in `getCellType`, so the impossible door-without-room
case falls through to the skip branch. -/
def bfsStep (visitedTurn occupied : List (Int × Int)) (pos : Int × Int)
    (dist : Nat) (path : List (Int × Int)) (visited : List (Int × Int))
    (acc : List (Room × Nat × List (Int × Int))) :
    List (Int × Int) × List (Room × Nat × List (Int × Int)) ×
      List ((Int × Int) × Nat × List (Int × Int)) :=
  (getAdjacentCells pos.1 pos.2).foldl
    (fun st adj =>
      let (vis, res, newItems) := st
      if adj ∈ vis ∨ adj ∈ visitedTurn then st
      else if adj ∈ occupied then st
      else
        match getCellType adj.1 adj.2 with
        | (CellType.DOOR, some rm) =>
            (visitedInsert vis adj, res ++ [(rm, dist + 1, path ++ [adj])], newItems)
        | (CellType.HALLWAY, _) =>
            (visitedInsert vis adj, res, newItems ++ [(adj, dist + 1, path ++ [adj])])
        | (CellType.START, _) =>
            (visitedInsert vis adj, res, newItems ++ [(adj, dist + 1, path ++ [adj])])
        | _ => st)
    (visited, acc, [])

/-- The BFS dequeue loop of `get_reachable_rooms`.  The Python loop terminates
because each cell is added to `visited` at most once, so at most
1 + 25 * 24 = 601 items are ever enqueued; the explicit budget of 700 used
below therefore never runs out. -/
def bfsAux (movesRem : Nat) (visitedTurn occupied : List (Int × Int)) :
    Nat → List ((Int × Int) × Nat × List (Int × Int)) → List (Int × Int) →
    List (Room × Nat × List (Int × Int)) → List (Room × Nat × List (Int × Int))
  | _, [], _, acc => acc
  | 0, _ :: _, _, acc => acc
  | fuel + 1, (pos, dist, path) :: queue, visited, acc =>
      if movesRem ≤ dist then
        bfsAux movesRem visitedTurn occupied fuel queue visited acc
      else
        let (visited', acc', newItems) :=
          bfsStep visitedTurn occupied pos dist path visited acc
        bfsAux movesRem visitedTurn occupied fuel (queue ++ newItems) visited' acc'

/-- Source `get_reachable_rooms(player)`: all `(room, distance, path)` triples
reachable within the remaining budget. -/
def getReachableRooms (gs : GameState) (i : Nat) :
    List (Room × Nat × List (Int × Int)) :=
  match gs.players.get? i with
  | none => []
  | some player =>
      match player.position with
      | none => []
      | some start =>
          if player.moves_remaining = 0 then []
          else
            bfsAux player.moves_remaining player.visited_this_turn
              (occupiedExcept gs i) 700 [(start, 0, [start])] [start] []

/-- Python's `str.lower()` on the ASCII names involved (an evaluable spelling
of `String.toLower`). -/
def strLower (s : String) : String := String.mk (s.data.map Char.toLower)

/-- Case-insensitive room-name lookup of the `move_to_room` tool
(`room.value.lower() == room_name.lower()`, first match in enum order). -/
def parseRoom (room_name : String) : Option Room :=
  roomList.find? (fun r => strLower r.value = strLower room_name)

/-- The outcomes of the `move_to_room` tool, one constructor per `return`
statement of the Python function (which returns strings; the constructors
carry the data interpolated into them). -/
inductive MoveRes where
  | playerNotFound
  | invalidRoom
  | usedPassage (dest : Room)
  | passageFailed (msg : String)
  | noExitFound
  | allExitsBlocked
  | couldNotExit
  | noMovesRemaining
  | cannotReach (reachable : List (Room × Nat))
  | cannotReachAny
  | blockedAt (step : Nat) (msg : String)
  | enteredRoom (room : Room) (dist : Nat)
  | movedToward (room : Room) (movesLeft : Nat)
deriving DecidableEq, Repr

/-- The step-walking loop at the end of `move_to_room` (`for i, (row, col) in
enumerate(path[1:], 1)`). -/
def walkPath (target : Room) (dist : Nat) :
    GameState → Nat → List (Int × Int) → Nat → GameState × MoveRes
  | gs, i, [], _ =>
      match gs.players.get? i with
      | some p => (gs, MoveRes.movedToward target p.moves_remaining)
      | none => (gs, MoveRes.movedToward target 0)
  | gs, i, (r, c) :: rest, stepNo =>
      match movePlayerOneStep gs i r c with
      | (gs', success, entered, msg) =>
          if ¬success then (gs', MoveRes.blockedAt stepNo msg)
          else
            match entered with
            | some rm => (gs', MoveRes.enteredRoom rm dist)
            | none => walkPath target dist gs' i rest (stepNo + 1)

/-- The `move_to_room` tool of game_tools.py: use a secret passage or exit the
current room first when inside one, then BFS to the target room and walk the
path.  The console writes are not modelled. -/
def moveToRoom (gs : GameState) (player_name room_name : String) :
    GameState × MoveRes :=
  match gs.players.findIdx? (fun p => p.name = player_name) with
  | none => (gs, MoveRes.playerNotFound)
  | some i =>
      match gs.players.get? i with
      | none => (gs, MoveRes.playerNotFound)
      | some player =>
          match parseRoom room_name with
          | none => (gs, MoveRes.invalidRoom)
          | some target =>
              let phase1 : Except (GameState × MoveRes) GameState :=
                match player.current_room with
                | some cur =>
                    if player.in_hallway then Except.ok gs
                    else if SECRET_PASSAGES cur = some target then
                      match useSecretPassage gs i with
                      | (gs', true, _) => Except.error (gs', MoveRes.usedPassage target)
                      | (gs', false, msg) => Except.error (gs', MoveRes.passageFailed msg)
                    else
                      let doors := getRoomDoors cur
                      if doors = [] then Except.error (gs, MoveRes.noExitFound)
                      else
                        let occupied := occupiedExcept gs i
                        match doors.find? (fun d => d ∉ occupied) with
                        | none => Except.error (gs, MoveRes.allExitsBlocked)
                        | some best =>
                            match exitRoomToHallway gs i best with
                            | (gs', true) => Except.ok gs'
                            | (gs', false) => Except.error (gs', MoveRes.couldNotExit)
                | none => Except.ok gs
              match phase1 with
              | Except.error res => res
              | Except.ok gs1 =>
                  match gs1.players.get? i with
                  | none => (gs1, MoveRes.playerNotFound)
                  | some p1 =>
                      if p1.moves_remaining = 0 then (gs1, MoveRes.noMovesRemaining)
                      else
                        let reachable := getReachableRooms gs1 i
                        match reachable.find? (fun q => q.1 = target) with
                        | none =>
                            if reachable ≠ [] then
                              (gs1, MoveRes.cannotReach
                                (reachable.map (fun q => (q.1, q.2.1))))
                            else (gs1, MoveRes.cannotReachAny)
                        | some (_, dist, path) =>
                            walkPath target dist gs1 i (path.drop 1) 1

/-- The field updates `move_suspect_to_room` applies to the named suspect's
player. -/
def movedUpd (room : Room) (p : Player) : Player :=
  { p with
    current_room := some room
    was_moved_by_suggestion := true
    has_moved_since_suggestion := true
    entered_room_this_turn := true
    in_hallway := false }

/-- Source `move_suspect_to_room(suspect_name, room)`: relocate the first player whose
character bears the suggested name. -/
def moveSuspectToRoom (gs : GameState) (suspect_name : String) (room : Room) :
    GameState :=
  match gs.players.findIdx? (fun p => p.character.value = suspect_name) with
  | none => gs
  | some j => updatePlayer gs j (movedUpd room)

/-- The bookkeeping `make_suggestion` performs on the suggester
(`player.last_suggestion_room = ...; player.has_moved_since_suggestion = False`). -/
def suggesterUpd (curRoom : Room) (p : Player) : Player :=
  { p with
    last_suggestion_room := some curRoom
    has_moved_since_suggestion := false }

/-- The clockwise disproof scan of `make_suggestion` (`for i in range(1,
len(self.players))`), with `random.choice` among the matching cards modelled by
the `choose` parameter. -/
def scanDisproveAux (players : List Player) (pIdx : Nat) (names3 : List String)
    (choose : List Card → Card) : Nat → Nat → Option (String × String)
  | 0, _ => none
  | k + 1, t =>
      let idx := (pIdx + t) % players.length
      match players.get? idx with
      | none => none
      | some other =>
          let matching := other.cards.filter (fun c => names3.contains c.name)
          if matching ≠ [] then some (other.name, (choose matching).name)
          else scanDisproveAux players pIdx names3 choose k (t + 1)

/-- The full disproof scan: players after the suggester in seating order. -/
def scanDisprove (players : List Player) (pIdx : Nat) (names3 : List String)
    (choose : List Card → Card) : Option (String × String) :=
  scanDisproveAux players pIdx names3 choose (players.length - 1) 1

/-- Source `make_suggestion(player, suspect, weapon)`.  The two `raise ValueError`
checks precede every mutation, so a rejection carries no successor state.
`self.players.index(player)` is modelled by passing the suggester's index;
the suggester's `knowledge` append is not modelled. -/
def makeSuggestion (gs : GameState) (i : Nat) (suspect weapon : String)
    (choose : List Card → Card) : Except String (GameState × Suggestion) :=
  match gs.players.get? i with
  | none => Except.error "No such player"
  | some player =>
      match player.current_room with
      | none => Except.error "Player must be in a room to make a suggestion"
      | some curRoom =>
          if ¬player.entered_room_this_turn ∧ ¬player.was_moved_by_suggestion then
            Except.error "You must enter a room during your turn to make a suggestion. Roll the dice and move into a room first."
          else if ¬player.has_moved_since_suggestion ∧
              ¬player.was_moved_by_suggestion ∧
              player.last_suggestion_room = some curRoom then
            Except.error "You must leave and re-enter this room before making another suggestion (American rules)"
          else
            let gs1 := moveSuspectToRoom gs suspect curRoom
            let gs2 := updatePlayer gs1 i (suggesterUpd curRoom)
            let res := scanDisprove gs2.players i [suspect, weapon, curRoom.value] choose
            let sugg : Suggestion :=
              { suggester := player.name, suspect := suspect, weapon := weapon
                room := curRoom.value
                disproven_by := res.map (·.1)
                card_shown := res.map (·.2) }
            let gs3 := { gs2 with suggestion_history := gs2.suggestion_history ++ [sugg] }
            Except.ok (gs3, sugg)

/-- Source `make_accusation(player, suspect, weapon, room)`.  The one `raise` precedes
every mutation. -/
def makeAccusation (gs : GameState) (i : Nat) (suspect weapon room : String) :
    Except String (GameState × Bool) :=
  match gs.players.get? i with
  | none => Except.error "No such player"
  | some player =>
      if player.has_accused_this_turn then
        Except.error "You can only make one accusation per turn"
      else
        let gs1 := updatePlayer gs i (fun p => { p with has_accused_this_turn := true })
        let is_correct : Bool :=
          gs.solution.suspect.name = suspect ∧
          gs.solution.weapon.name = weapon ∧
          gs.solution.room.name = room
        if is_correct then
          Except.ok ({ gs1 with game_over := true, winner := some player.name }, true)
        else
          let gs2 := updatePlayer gs1 i (fun p => { p with is_active := false })
          let actives := gs2.players.filter (·.is_active)
          let gs3 :=
            if actives.length = 1 then
              { gs2 with game_over := true, winner := actives.head?.map (·.name) }
            else gs2
          Except.ok (gs3, false)

/-- The 6 suspect cards, in enum order (`setup_game`). -/
def suspectCards : List Card :=
  suspectList.map (fun s => { name := s.value, card_type := "suspect" })

/-- The 6 weapon cards, in enum order. -/
def weaponCards : List Card :=
  weaponList.map (fun w => { name := w.value, card_type := "weapon" })

/-- The 9 room cards, in enum order. -/
def roomCards : List Card :=
  roomList.map (fun r => { name := r.value, card_type := "room" })

/-- The full 21-card deck in the order `setup_game` builds it. -/
def allCardsList : List Card := suspectCards ++ weaponCards ++ roomCards

/-- Placeholder card for list defaults that are never reached. -/
def defaultCard : Card := { name := "", card_type := "" }

/-- The `random.choice` solution draws of `setup_game`, indexed. -/
def solutionOf (si wi : Fin 6) (ri : Fin 9) : Solution :=
  { suspect := suspectCards.getD si.val defaultCard
    weapon := weaponCards.getD wi.val defaultCard
    room := roomCards.getD ri.val defaultCard }

/-- The deck left after removing the solution
(`[c for c in ... if c not in [...]]`). -/
def remainingCards (sol : Solution) : List Card :=
  allCardsList.filter (fun c => c ∉ [sol.suspect, sol.weapon, sol.room])

/-- The round-robin deal (`for i, card in enumerate(remaining_cards):
players[i % n].cards.append(card)`): hand `j` receives the cards at indices
congruent to `j` modulo the player count, in order. -/
def dealtHand (n j : Nat) (l : List Card) : List Card :=
  (l.enum.filter (fun q => q.1 % n = j)).map (·.2)

/-- The Miss-Scarlet-first reordering of `setup_game` (find her player's index
and move that player to the front). -/
def scarletFirst (l : List Player) : List Player :=
  match l.findIdx? (fun p => p.character = Suspect.MISS_SCARLET) with
  | none => l
  | some idx =>
      if idx = 0 then l
      else
        match l.get? idx with
        | some sp => sp :: l.eraseIdx idx
        | none => l

/-- Source `setup_game(player_names)`.  The nondeterminism is passed in explicitly:
`si`/`wi`/`ri` index the `random.choice` solution draws, `chars` is the
`random.shuffle`d character list, and `shuffled` stands for the
`random.shuffle`d remaining deck (the theorems constrain it to a permutation
of `remainingCards (solutionOf si wi ri)`).  `none` models the two ways the
Python function raises: zero players divide by zero in the dealing loop, and
more players than characters overrun `available_characters[i]`. -/
def setupGame (names : List String) (si wi : Fin 6) (ri : Fin 9)
    (chars : List Suspect) (shuffled : List Card) : Option GameState :=
  let sol := solutionOf si wi ri
  if names.length = 0 then none
  else if chars.length < names.length then none
  else
    let players0 := names.enum.map (fun q =>
      let character := chars.getD q.1 Suspect.MISS_SCARLET
      ({ name := q.2, character := character
         current_room := none, in_hallway := true
         position := some (STARTING_GRID_POSITIONS character)
         moves_remaining := 0, visited_this_turn := [] } : Player))
    let reordered := scarletFirst players0
    let n := reordered.length
    let withCards := reordered.enum.map (fun q =>
      { q.2 with cards := dealtHand n q.1 shuffled })
    some { players := withCards, solution := sol }

/-- The player-count validation at the top of `run_game` in main.py
(`if num_players < 3 or num_players > 6: ... return None`). -/
def runGameRejectsCount (num_players : Int) : Bool :=
  num_players < 3 || num_players > 6

theorem updateAt_get? (f : Player → Player) :
    ∀ (l : List Player) (i j : Nat),
      (updateAt i f l).get? j = if j = i then (l.get? j).map f else l.get? j := by
  intro l
  induction l with
  | nil => intro i j; simp [updateAt]
  | cons p ps ih =>
      intro i j
      cases i with
      | zero =>
          cases j with
          | zero => simp [updateAt]
          | succ j => simp [updateAt]
      | succ i =>
          cases j with
          | zero => simp [updateAt]
          | succ j =>
              simpa [updateAt, Nat.succ_eq_add_one] using ih i j

theorem updateAt_getElem? (f : Player → Player) (l : List Player) (i j : Nat) :
    (updateAt i f l)[j]? = if j = i then l[j]?.map f else l[j]? := by
  rw [← List.get?_eq_getElem?, ← List.get?_eq_getElem?, updateAt_get?]

theorem updateAt_length (f : Player → Player) :
    ∀ (l : List Player) (i : Nat), (updateAt i f l).length = l.length := by
  intro l
  induction l with
  | nil => intro i; simp [updateAt]
  | cons p ps ih =>
      intro i
      cases i with
      | zero => simp [updateAt]
      | succ i => simpa [updateAt] using ih i

/-- A sample player in hallway at the character's start square. -/
def samplePlayer (nm : String) (ch : Suspect) : Player :=
  { name := nm, character := ch, position := some (STARTING_GRID_POSITIONS ch) }

/-- A fixed sample solution for concrete games. -/
def sampleSolution : Solution :=
  { suspect := { name := "Miss Scarlet", card_type := "suspect" }
    weapon := { name := "Knife", card_type := "weapon" }
    room := { name := "Kitchen", card_type := "room" } }

/-- Concrete player: Miss Scarlet's player mid-turn in the hallway with budget
left and `entered_room_this_turn` still false. -/
def pA : Player :=
  { samplePlayer "A" Suspect.MISS_SCARLET with moves_remaining := 5 }

/-- Concrete game around `pA`. -/
def gsA : GameState :=
  { players := [pA, samplePlayer "B" Suspect.COLONEL_MUSTARD]
    solution := sampleSolution }

/-- Concrete player standing one step from the Kitchen door at (6, 6). -/
def pB : Player :=
  { samplePlayer "A" Suspect.MISS_SCARLET with
    position := some (7, 6), moves_remaining := 3 }

/-- Concrete game around `pB`. -/
def gsB : GameState :=
  { players := [pB, samplePlayer "B" Suspect.COLONEL_MUSTARD]
    solution := sampleSolution }

/-- Concrete player inside the Kitchen with budget left. -/
def pC : Player :=
  { samplePlayer "A" Suspect.MISS_SCARLET with
    current_room := some Room.KITCHEN, in_hallway := false
    position := none, moves_remaining := 2
    entered_room_this_turn := true }

/-- Concrete game: a player inside the Kitchen (a secret-passage room). -/
def gsC : GameState :=
  { players := [pC, samplePlayer "B" Suspect.COLONEL_MUSTARD]
    solution := sampleSolution }

/-- Concrete game: a player inside the Kitchen with zero movement budget. -/
def gsD : GameState :=
  { players := [{ pC with moves_remaining := 0 },
                samplePlayer "B" Suspect.COLONEL_MUSTARD]
    solution := sampleSolution }

/-- Claim C1, amended.  Entering a room through a door step
(`move_player_one_step`) or a secret passage (`use_secret_passage`) zeroes the
movement budget and sets `entered_room_this_turn`; the legacy room-graph move
(`move_player`) zeroes the budget but leaves `entered_room_this_turn`
unchanged — it never sets the flag. -/
theorem C1_room_entry_zeroes_budget_amended :
    (∀ (gs : GameState) (i : Nat) (row col : Int) (gs' : GameState) (rm : Room)
        (msg : String),
      movePlayerOneStep gs i row col = (gs', true, some rm, msg) →
      (gs'.players.get? i).map
          (fun p => (p.moves_remaining, p.entered_room_this_turn)) =
        some (0, true)) ∧
    (∀ (gs : GameState) (i : Nat) (gs' : GameState) (msg : String),
      useSecretPassage gs i = (gs', true, msg) →
      (gs'.players.get? i).map
          (fun p => (p.moves_remaining, p.entered_room_this_turn)) =
        some (0, true)) ∧
    (∀ (gs : GameState) (i : Nat) (room : Room) (gs' : GameState),
      movePlayer gs i room = (gs', true) →
      (gs'.players.get? i).map (fun p => p.moves_remaining) = some 0 ∧
      (gs'.players.get? i).map (fun p => p.entered_room_this_turn) =
        (gs.players.get? i).map (fun p => p.entered_room_this_turn)) := by
  refine ⟨?_, ?_, ?_⟩
  · intro gs i row col gs' rm msg heq
    unfold movePlayerOneStep at heq
    cases hp : gs.players.get? i with
    | none => rw [hp] at heq; simp at heq
    | some player =>
        have hp' : gs.players[i]? = some player := by
          rw [← List.get?_eq_getElem?]; exact hp
        rw [hp] at heq
        dsimp only at heq
        repeat' split at heq
        all_goals simp only [Prod.mk.injEq] at heq
        all_goals try exact Bool.noConfusion heq.2.1
        all_goals try exact Option.noConfusion heq.2.2.1
        all_goals
          obtain ⟨hgs, -, -, -⟩ := heq
          subst hgs
          dsimp only [updatePlayer]
          rw [updateAt_get?]
          simp [hp, hp']
  · intro gs i gs' msg heq
    unfold useSecretPassage at heq
    cases hp : gs.players.get? i with
    | none => rw [hp] at heq; simp at heq
    | some player =>
        have hp' : gs.players[i]? = some player := by
          rw [← List.get?_eq_getElem?]; exact hp
        rw [hp] at heq
        dsimp only at heq
        repeat' split at heq
        all_goals simp only [Prod.mk.injEq] at heq
        all_goals try exact Bool.noConfusion heq.2.1
        all_goals
          obtain ⟨hgs, -, -⟩ := heq
          subst hgs
          dsimp only [updatePlayer]
          rw [updateAt_get?]
          simp [hp, hp']
  · intro gs i room gs' heq
    unfold movePlayer at heq
    cases hp : gs.players.get? i with
    | none => rw [hp] at heq; simp at heq
    | some player =>
        have hp' : gs.players[i]? = some player := by
          rw [← List.get?_eq_getElem?]; exact hp
        rw [hp] at heq
        dsimp only at heq
        split at heq
        · simp only [Prod.mk.injEq] at heq
          obtain ⟨hgs, -⟩ := heq
          subst hgs
          constructor <;>
            · dsimp only [updatePlayer]
              rw [updateAt_get?]
              simp [hp, hp']
        · simp at heq

/-- Counterexample to claim C1 as stated: a room-graph `move_player` from the
hallway succeeds and zeroes the budget, but leaves `entered_room_this_turn`
false. -/
theorem C1_counterexample :
    (movePlayer gsA 0 Room.HALL).2 = true ∧
    ((movePlayer gsA 0 Room.HALL).1.players.get? 0).map
        (fun p => (p.entered_room_this_turn, p.moves_remaining)) =
      some (false, 0) := by
  decide

/-- Witness for C1 (amended) at concrete inputs: a door step into the Kitchen,
a secret-passage jump out of the Kitchen, and a room-graph move. -/
theorem C1_room_entry_zeroes_budget_amended_witness :
    (((movePlayerOneStep gsB 0 6 6).1.players.get? 0).map
        (fun p => (p.moves_remaining, p.entered_room_this_turn)) = some (0, true)) ∧
    (((useSecretPassage gsC 0).1.players.get? 0).map
        (fun p => (p.moves_remaining, p.entered_room_this_turn)) = some (0, true)) ∧
    (((movePlayer gsA 0 Room.HALL).1.players.get? 0).map
        (fun p => p.moves_remaining) = some 0 ∧
     ((movePlayer gsA 0 Room.HALL).1.players.get? 0).map
        (fun p => p.entered_room_this_turn) =
       (gsA.players.get? 0).map (fun p => p.entered_room_this_turn)) :=
  ⟨C1_room_entry_zeroes_budget_amended.1 gsB 0 6 6 _ Room.KITCHEN
      "Entered room. Movement ends." (by decide),
   C1_room_entry_zeroes_budget_amended.2.1 gsC 0 _ "Used secret passage." (by decide),
   C1_room_entry_zeroes_budget_amended.2.2 gsA 0 Room.HALL _ (by decide)⟩

/-- Claim C9, amended.  `exit_room_to_hallway` succeeds exactly when the door
cell belongs to the player's current room and is unoccupied — the movement
budget is not consulted, so a player with zero remaining budget can still
legally exit.  On success the player stands in the hallway at the door cell
and the budget decreases by one only when it was positive (it stays 0 when it
was 0, rather than the claimed unconditional decrease by exactly one). -/
theorem C9_exit_room_amended (gs : GameState) (i : Nat) (door : Int × Int)
    (player : Player) (hp : gs.players.get? i = some player) :
    ((exitRoomToHallway gs i door).2 = true ↔
      ∃ cur, player.current_room = some cur ∧
        getCellType door.1 door.2 = (CellType.DOOR, some cur) ∧
        door ∉ occupiedExcept gs i) ∧
    ((exitRoomToHallway gs i door).2 = true →
      ((exitRoomToHallway gs i door).1.players.get? i).map
          (fun p => (p.current_room, p.in_hallway, p.position, p.moves_remaining)) =
        some (none, true, some door,
          if 0 < player.moves_remaining then player.moves_remaining - 1
          else player.moves_remaining)) := by
  have hp' : gs.players[i]? = some player := by
    rw [← List.get?_eq_getElem?]; exact hp
  unfold exitRoomToHallway
  rw [hp]
  dsimp only
  cases hcr : player.current_room with
  | none => simp [hcr]
  | some cur =>
      rcases hgc : getCellType door.1 door.2 with ⟨ct, room⟩
      dsimp only
      by_cases h1 : ct ≠ CellType.DOOR ∨ room ≠ some cur
      · rw [if_pos h1]
        constructor
        · constructor
          · intro h; cases h
          · rintro ⟨cur', hcur', hcell, -⟩
            injection hcur' with hc
            subst hc
            have hc1 : ct = CellType.DOOR := congrArg Prod.fst hcell
            have hc2 : room = some cur := congrArg Prod.snd hcell
            rcases h1 with h1 | h1
            · exact absurd hc1 h1
            · exact absurd hc2 h1
        · intro h; cases h
      · rw [if_neg h1]
        push_neg at h1
        obtain ⟨hct, hroom⟩ := h1
        by_cases h2 : door ∈ occupiedExcept gs i
        · rw [if_pos h2]
          constructor
          · constructor
            · intro h; cases h
            · rintro ⟨cur', -, -, hocc⟩
              exact absurd h2 hocc
          · intro h; cases h
        · rw [if_neg h2]
          constructor
          · constructor
            · intro _
              exact ⟨cur, rfl, by rw [hct, hroom], h2⟩
            · intro _; rfl
          · intro _
            dsimp only [updatePlayer]
            rw [updateAt_get?]
            simp [hp, hp']

/-- Counterexample to claim C9 as stated: a player inside the Kitchen with
zero movement budget successfully exits through the Kitchen door at (6, 6),
and the exit consumes no movement step (the budget stays 0) — so a zero-budget
player does have a legal exit move and the step cost is not exactly one. -/
theorem C9_counterexample :
    (exitRoomToHallway gsD 0 (6, 6)).2 = true ∧
    ((exitRoomToHallway gsD 0 (6, 6)).1.players.get? 0).map
        (fun p => p.moves_remaining) = some 0 := by
  decide

/-- Truth of an `Except` being a success. -/
def isOkE {ε α : Type} : Except ε α → Bool
  | Except.ok _ => true
  | Except.error _ => false

/-- A concrete chooser for the disproof card (always the first matching card),
standing in for `random.choice`. -/
def chooseHead (l : List Card) : Card := l.headD defaultCard

/-- A placeholder suggestion for totalising projections. -/
def defaultSugg : Suggestion :=
  { suggester := "", suspect := "", weapon := "", room := "" }

/-- The game state carried by a successful suggestion result. -/
def okState (e : Except String (GameState × Suggestion)) (d : GameState) : GameState :=
  match e with
  | Except.ok (g, _) => g
  | Except.error _ => d

/-- The suggestion carried by a successful suggestion result. -/
def okSugg (e : Except String (GameState × Suggestion)) : Suggestion :=
  match e with
  | Except.ok (_, s) => s
  | Except.error _ => defaultSugg

/-- Whether the player seated at index `j` holds at least one of the three
named cards.  Note the predicate never consults `is_active`: eliminated
players participate in the scan. -/
def holderAt (players : List Player) (names3 : List String) (j : Nat) : Bool :=
  match players.get? j with
  | some p => p.cards.any (fun c => names3.contains c.name)
  | none => false

/-- The disclosure made by the player at index `j`: their name, and the name of
the card the chooser picks among their matching cards. -/
def disproofSpec (players : List Player) (names3 : List String)
    (choose : List Card → Card) (j : Nat) : Option (String × String) :=
  (players.get? j).map (fun p =>
    (p.name, (choose (p.cards.filter (fun c => names3.contains c.name))).name))

/-- The seating order the scan visits: the seat immediately after the
suggester, then onwards clockwise with wrap-around, covering every other seat
exactly once. -/
def scanOrder (n pIdx : Nat) : List Nat :=
  (List.range' 1 (n - 1)).map (fun t => (pIdx + t) % n)

theorem chooseHead_mem (l : List Card) (h : l ≠ []) : chooseHead l ∈ l := by
  cases l with
  | nil => exact absurd rfl h
  | cons c cs => exact List.mem_cons_self c cs

theorem any_iff_filter_ne_nil (l : List Card) (f : Card → Bool) :
    l.any f = true ↔ l.filter f ≠ [] := by
  rw [List.any_eq_true]
  constructor
  · rintro ⟨x, hx, hfx⟩ hnil
    exact absurd hfx (List.filter_eq_nil_iff.mp hnil x hx)
  · intro h
    cases hf : l.filter f with
    | nil => exact absurd hf h
    | cons y ys =>
        have hy : y ∈ l.filter f := hf ▸ List.mem_cons_self y ys
        exact ⟨y, List.mem_of_mem_filter hy, List.of_mem_filter hy⟩

theorem scanDisproveAux_spec (players : List Player) (pIdx : Nat)
    (names3 : List String) (choose : List Card → Card) (hne : players ≠ []) :
    ∀ (k t : Nat),
      scanDisproveAux players pIdx names3 choose k t =
        (((List.range' t k).map (fun u => (pIdx + u) % players.length)).find?
          (holderAt players names3)).bind (disproofSpec players names3 choose) := by
  intro k
  induction k with
  | zero => intro t; rfl
  | succ k ih =>
      intro t
      have hlen : 0 < players.length := List.length_pos.mpr hne
      have hidx : (pIdx + t) % players.length < players.length :=
        Nat.mod_lt _ hlen
      cases hgo : players.get? ((pIdx + t) % players.length) with
      | none =>
          exact absurd (List.get?_eq_none.mp hgo) (Nat.not_le.mpr hidx)
      | some other =>
          have hrange : List.range' t (k + 1) = t :: List.range' (t + 1) k :=
            List.range'_succ t k 1
          rw [hrange]
          unfold scanDisproveAux
          simp only [hgo]
          simp only [List.map_cons]
          have hhold : holderAt players names3 ((pIdx + t) % players.length) =
              other.cards.any (fun c => names3.contains c.name) := by
            unfold holderAt
            rw [hgo]
          by_cases hm : other.cards.filter (fun c => names3.contains c.name) ≠ []
          · rw [if_pos hm]
            have hht : holderAt players names3 ((pIdx + t) % players.length) = true := by
              rw [hhold]
              exact (any_iff_filter_ne_nil _ _).mpr hm
            rw [List.find?_cons_of_pos _ hht]
            unfold disproofSpec
            simp only [Option.some_bind, hgo]
            rfl
          · rw [if_neg hm]
            have hhf : ¬ holderAt players names3 ((pIdx + t) % players.length) = true := by
              rw [hhold]
              intro hc
              exact hm ((any_iff_filter_ne_nil _ _).mp hc)
            rw [List.find?_cons_of_neg _ hhf]
            exact ih (t + 1)

theorem get?_name_cards_updateAt (f : Player → Player)
    (hf : ∀ p, (f p).name = p.name ∧ (f p).cards = p.cards)
    (l : List Player) (i j : Nat) :
    ((updateAt i f l).get? j).map (fun p => (p.name, p.cards)) =
      (l.get? j).map (fun p => (p.name, p.cards)) := by
  rw [updateAt_get?]
  by_cases hji : j = i
  · rw [if_pos hji]
    cases hg : l.get? j with
    | none => rfl
    | some p => simp [(hf p).1, (hf p).2]
  · rw [if_neg hji]

theorem holderAt_congr (l l' : List Player) (names3 : List String) (j : Nat)
    (h : (l.get? j).map (fun p => (p.name, p.cards)) =
      (l'.get? j).map (fun p => (p.name, p.cards))) :
    holderAt l names3 j = holderAt l' names3 j := by
  unfold holderAt
  cases hg : l.get? j with
  | none =>
      cases hg' : l'.get? j with
      | none => rfl
      | some q => rw [hg, hg'] at h; simp at h
  | some p =>
      cases hg' : l'.get? j with
      | none => rw [hg, hg'] at h; simp at h
      | some q =>
          rw [hg, hg'] at h
          have h' : (p.name, p.cards) = (q.name, q.cards) := by simpa using h
          have hcards : p.cards = q.cards := congrArg Prod.snd h'
          show (p.cards.any fun c => names3.contains c.name) =
            (q.cards.any fun c => names3.contains c.name)
          rw [hcards]

theorem disproofSpec_congr (l l' : List Player) (names3 : List String)
    (choose : List Card → Card) (j : Nat)
    (h : (l.get? j).map (fun p => (p.name, p.cards)) =
      (l'.get? j).map (fun p => (p.name, p.cards))) :
    disproofSpec l names3 choose j = disproofSpec l' names3 choose j := by
  unfold disproofSpec
  cases hg : l.get? j with
  | none =>
      cases hg' : l'.get? j with
      | none => rfl
      | some q => rw [hg, hg'] at h; simp at h
  | some p =>
      cases hg' : l'.get? j with
      | none => rw [hg, hg'] at h; simp at h
      | some q =>
          rw [hg, hg'] at h
          have h' : (p.name, p.cards) = (q.name, q.cards) := by simpa using h
          have hn : p.name = q.name := congrArg Prod.fst h'
          have hc : p.cards = q.cards := congrArg Prod.snd h'
          show some (p.name, (choose (p.cards.filter fun c => names3.contains c.name)).name) =
            some (q.name, (choose (q.cards.filter fun c => names3.contains c.name)).name)
          rw [hn, hc]

theorem postSuggest_name_cards (gs : GameState) (i : Nat) (suspect : String)
    (curRoom : Room) (j : Nat) :
    (((updatePlayer (moveSuspectToRoom gs suspect curRoom) i
        (suggesterUpd curRoom)).players.get? j).map (fun p => (p.name, p.cards))) =
      (gs.players.get? j).map (fun p => (p.name, p.cards)) := by
  unfold moveSuspectToRoom
  cases hf : gs.players.findIdx? (fun p => p.character.value = suspect) with
  | none =>
      dsimp only [updatePlayer]
      exact get?_name_cards_updateAt (suggesterUpd curRoom)
        (fun p => ⟨rfl, rfl⟩) gs.players i j
  | some k =>
      dsimp only [updatePlayer]
      rw [get?_name_cards_updateAt (suggesterUpd curRoom) (fun p => ⟨rfl, rfl⟩),
          get?_name_cards_updateAt (movedUpd curRoom) (fun p => ⟨rfl, rfl⟩)]

theorem postSuggest_length (gs : GameState) (i : Nat) (suspect : String)
    (curRoom : Room) :
    ((updatePlayer (moveSuspectToRoom gs suspect curRoom) i
        (suggesterUpd curRoom)).players).length = gs.players.length := by
  unfold moveSuspectToRoom
  cases hf : gs.players.findIdx? (fun p => p.character.value = suspect) with
  | none =>
      dsimp only [updatePlayer]
      rw [updateAt_length]
  | some k =>
      dsimp only [updatePlayer]
      rw [updateAt_length, updateAt_length]

theorem makeSuggestion_scan_spec (gs : GameState) (i : Nat)
    (suspect weapon : String) (choose : List Card → Card) (gs' : GameState)
    (sugg : Suggestion) (player : Player) (curRoom : Room)
    (hp : gs.players.get? i = some player)
    (hcr : player.current_room = some curRoom)
    (hne : gs.players ≠ [])
    (heq : makeSuggestion gs i suspect weapon choose = Except.ok (gs', sugg)) :
    sugg.disproven_by =
      (((scanOrder gs.players.length i).find?
          (holderAt gs.players [suspect, weapon, curRoom.value])).bind
        (disproofSpec gs.players [suspect, weapon, curRoom.value] choose)).map
          (fun x => x.1) ∧
    sugg.card_shown =
      (((scanOrder gs.players.length i).find?
          (holderAt gs.players [suspect, weapon, curRoom.value])).bind
        (disproofSpec gs.players [suspect, weapon, curRoom.value] choose)).map
          (fun x => x.2) := by
  unfold makeSuggestion at heq
  rw [hp] at heq
  dsimp only at heq
  rw [hcr] at heq
  dsimp only at heq
  split at heq
  · cases heq
  · split at heq
    · cases heq
    · cases heq
      set L2 := (updatePlayer (moveSuspectToRoom gs suspect curRoom) i
        (suggesterUpd curRoom)).players with hL2
      have hlen2 : L2.length = gs.players.length := by
        rw [hL2]; exact postSuggest_length gs i suspect curRoom
      have hne2 : L2 ≠ [] := by
        intro hc
        apply hne
        have : L2.length = 0 := by rw [hc]; rfl
        rw [hlen2] at this
        exact List.length_eq_zero.mp this
      have hh : holderAt L2 [suspect, weapon, curRoom.value] =
          holderAt gs.players [suspect, weapon, curRoom.value] :=
        funext fun j => holderAt_congr _ _ _ j
          (hL2 ▸ postSuggest_name_cards gs i suspect curRoom j)
      have hd : disproofSpec L2 [suspect, weapon, curRoom.value] choose =
          disproofSpec gs.players [suspect, weapon, curRoom.value] choose :=
        funext fun j => disproofSpec_congr _ _ _ _ j
          (hL2 ▸ postSuggest_name_cards gs i suspect curRoom j)
      have hres : scanDisprove L2 i [suspect, weapon, curRoom.value] choose =
          ((scanOrder gs.players.length i).find?
            (holderAt gs.players [suspect, weapon, curRoom.value])).bind
          (disproofSpec gs.players [suspect, weapon, curRoom.value] choose) := by
        unfold scanDisprove scanOrder
        rw [scanDisproveAux_spec L2 i [suspect, weapon, curRoom.value] choose hne2]
        rw [hh, hd, hlen2]
      exact ⟨by rw [hres], by rw [hres]⟩

/-- Claim C5: the disproof scan of `make_suggestion` visits the other players
in seating order starting immediately after the suggester with wrap-around
(the `scanOrder` list), ignores elimination status (`holderAt` never reads
`is_active`), stops at the first player holding one of the three named cards,
and records that player's name together with one card drawn from their
matching cards; when no player holds any of the three, the suggestion carries
no disprover and no shown card. -/
theorem C5_disproof_scan (gs : GameState) (i : Nat) (suspect weapon : String)
    (choose : List Card → Card) (gs' : GameState) (sugg : Suggestion)
    (player : Player) (curRoom : Room)
    (hp : gs.players.get? i = some player)
    (hcr : player.current_room = some curRoom)
    (hne : gs.players ≠ [])
    (hchoose : ∀ l, l ≠ [] → choose l ∈ l)
    (heq : makeSuggestion gs i suspect weapon choose = Except.ok (gs', sugg)) :
    match (scanOrder gs.players.length i).find?
        (holderAt gs.players [suspect, weapon, curRoom.value]) with
    | none => sugg.disproven_by = none ∧ sugg.card_shown = none
    | some j => ∃ q, gs.players.get? j = some q ∧
        sugg.disproven_by = some q.name ∧
        ∃ c, c ∈ q.cards.filter
            (fun cd => ([suspect, weapon, curRoom.value] : List String).contains cd.name) ∧
          sugg.card_shown = some c.name := by
  obtain ⟨hdb, hcs⟩ :=
    makeSuggestion_scan_spec gs i suspect weapon choose gs' sugg player curRoom
      hp hcr hne heq
  cases hfind : (scanOrder gs.players.length i).find?
      (holderAt gs.players [suspect, weapon, curRoom.value]) with
  | none =>
      rw [hfind] at hdb hcs
      exact ⟨by simpa using hdb, by simpa using hcs⟩
  | some j =>
      rw [hfind] at hdb hcs
      simp only [Option.some_bind] at hdb hcs
      have hholder : holderAt gs.players [suspect, weapon, curRoom.value] j = true :=
        List.find?_some hfind
      cases hq : gs.players.get? j with
      | none =>
          unfold holderAt at hholder
          rw [hq] at hholder
          cases hholder
      | some q =>
          have hfil : q.cards.filter
              (fun c => ([suspect, weapon, curRoom.value] : List String).contains c.name) ≠ [] := by
            unfold holderAt at hholder
            rw [hq] at hholder
            exact (any_iff_filter_ne_nil _ _).mp hholder
          refine ⟨q, hq, ?_, ?_⟩
          · rw [hdb]
            unfold disproofSpec
            rw [hq]
            rfl
          · refine ⟨choose (q.cards.filter
                (fun c => ([suspect, weapon, curRoom.value] : List String).contains c.name)),
              hchoose _ hfil, ?_⟩
            rw [hcs]
            unfold disproofSpec
            rw [hq]
            rfl

/-- The round-robin hand with an index offset (generalisation of `dealtHand`
used for the dealing induction). -/
def dealtHandFrom (n j k : Nat) (l : List Card) : List Card :=
  ((l.enumFrom k).filter (fun q => q.1 % n = j)).map (·.2)

theorem dealtHandFrom_cons (n j k : Nat) (c : Card) (l : List Card) :
    dealtHandFrom n j k (c :: l) =
      (if k % n = j then [c] else []) ++ dealtHandFrom n j (k + 1) l := by
  unfold dealtHandFrom
  by_cases h : k % n = j <;> simp [List.enumFrom, List.filter_cons, h]

theorem dealtHandFrom_join_perm (n : Nat) (hn : 1 ≤ n) :
    ∀ (l : List Card) (k : Nat),
      (((List.range n).map (fun j => dealtHandFrom n j k l)).flatten).Perm l := by
  intro l
  induction l with
  | nil =>
      intro k
      have h : (List.range n).map (fun j => dealtHandFrom n j k []) =
          (List.range n).map (fun _ => ([] : List Card)) := rfl
      rw [h]
      simp
  | cons c l ih =>
      intro k
      have hj0 : k % n ∈ List.range n := List.mem_range.mpr (Nat.mod_lt _ hn)
      obtain ⟨A, B, hAB⟩ := List.append_of_mem hj0
      have hnodup : (List.range n).Nodup := List.nodup_range n
      rw [hAB] at hnodup
      have hj0A : k % n ∉ A := by
        intro hmem
        exact (List.nodup_append.mp hnodup).2.2 hmem (List.mem_cons_self _ _)
      have hj0B : k % n ∉ B :=
        (List.nodup_cons.mp (List.nodup_append.mp hnodup).2.1).1
      rw [hAB, List.map_append, List.map_cons, List.flatten_append, List.flatten_cons]
      have hA : A.map (fun j => dealtHandFrom n j k (c :: l)) =
          A.map (fun j => dealtHandFrom n j (k + 1) l) := by
        apply List.map_congr_left
        intro j hjA
        rw [dealtHandFrom_cons,
          if_neg (show ¬(k % n = j) from fun he => hj0A (by rw [he]; exact hjA))]
        rfl
      have hB : B.map (fun j => dealtHandFrom n j k (c :: l)) =
          B.map (fun j => dealtHandFrom n j (k + 1) l) := by
        apply List.map_congr_left
        intro j hjB
        rw [dealtHandFrom_cons,
          if_neg (show ¬(k % n = j) from fun he => hj0B (by rw [he]; exact hjB))]
        rfl
      rw [hA, hB, dealtHandFrom_cons (j := k % n), if_pos rfl]
      have hshape :
          (A.map (fun j => dealtHandFrom n j (k + 1) l)).flatten ++
            (([c] ++ dealtHandFrom n (k % n) (k + 1) l) ++
              (B.map (fun j => dealtHandFrom n j (k + 1) l)).flatten) =
          (A.map (fun j => dealtHandFrom n j (k + 1) l)).flatten ++
            (c :: (dealtHandFrom n (k % n) (k + 1) l ++
              (B.map (fun j => dealtHandFrom n j (k + 1) l)).flatten)) := by
        simp
      rw [hshape]
      refine List.perm_middle.trans ?_
      apply List.Perm.cons
      have hglue :
          (A.map (fun j => dealtHandFrom n j (k + 1) l)).flatten ++
            (dealtHandFrom n (k % n) (k + 1) l ++
              (B.map (fun j => dealtHandFrom n j (k + 1) l)).flatten) =
          ((A ++ k % n :: B).map (fun j => dealtHandFrom n j (k + 1) l)).flatten := by
        rw [List.map_append, List.map_cons, List.flatten_append, List.flatten_cons]
      rw [hglue, ← hAB]
      exact ih (k + 1)

theorem dealtHand_join_perm (n : Nat) (hn : 1 ≤ n) (l : List Card) :
    (((List.range n).map (fun j => dealtHand n j l)).flatten).Perm l :=
  dealtHandFrom_join_perm n hn l 0

theorem dealtHand_length (n j : Nat) (l : List Card) :
    (dealtHand n j l).length =
      ((List.range l.length).filter (fun u => u % n = j)).length := by
  unfold dealtHand
  rw [List.length_map, ← List.countP_eq_length_filter, ← List.countP_eq_length_filter,
      ← List.enum_map_fst l, List.countP_map]
  rfl

theorem dealSizes_aux :
    ∀ n, 1 ≤ n → n ≤ 6 → ∀ (j k : Fin n),
      ((List.range 18).filter (fun u => u % n = j.val)).length ≤
        ((List.range 18).filter (fun u => u % n = k.val)).length + 1 := by
  intro n h1 h6
  interval_cases n <;> decide

theorem allCards_facts :
    allCardsList.length = 21 ∧ allCardsList.Nodup ∧
    (allCardsList.filter (fun c => c.card_type = "suspect")).length = 6 ∧
    (allCardsList.filter (fun c => c.card_type = "weapon")).length = 6 ∧
    (allCardsList.filter (fun c => c.card_type = "room")).length = 9 := by
  decide

theorem solutionOf_types : ∀ (si wi : Fin 6) (ri : Fin 9),
    (solutionOf si wi ri).suspect.card_type = "suspect" ∧
    (solutionOf si wi ri).weapon.card_type = "weapon" ∧
    (solutionOf si wi ri).room.card_type = "room" := by
  decide

theorem deck_filter_solution : ∀ (si wi : Fin 6) (ri : Fin 9),
    allCardsList.filter (fun c =>
      !(decide (c ∉ [(solutionOf si wi ri).suspect, (solutionOf si wi ri).weapon,
        (solutionOf si wi ri).room]))) =
    [(solutionOf si wi ri).suspect, (solutionOf si wi ri).weapon,
     (solutionOf si wi ri).room] := by
  decide

theorem remaining_solution_perm (si wi : Fin 6) (ri : Fin 9) :
    (remainingCards (solutionOf si wi ri) ++
      [(solutionOf si wi ri).suspect, (solutionOf si wi ri).weapon,
       (solutionOf si wi ri).room]).Perm allCardsList := by
  have h := List.filter_append_perm
    (fun c => decide (c ∉ [(solutionOf si wi ri).suspect, (solutionOf si wi ri).weapon,
      (solutionOf si wi ri).room])) allCardsList
  rw [deck_filter_solution si wi ri] at h
  exact h

theorem enum_map_fst_apply {α β : Type} (l : List α) (g : Nat → β) :
    l.enum.map (fun q => g q.1) = (List.range l.length).map g := by
  rw [← List.enum_map_fst l, List.map_map]
  rfl

theorem mem_enumFrom_fst_lt {α : Type} :
    ∀ (l : List α) (k : Nat) (q : Nat × α), q ∈ l.enumFrom k → q.1 < k + l.length := by
  intro l
  induction l with
  | nil => intro k q hq; cases hq
  | cons x l ih =>
      intro k q hq
      rcases List.mem_cons.mp hq with rfl | hq
      · simp only [List.length_cons]
        omega
      · have := ih (k + 1) q hq
        simp only [List.length_cons]
        omega

theorem mem_enum_fst_lt {α : Type} (l : List α) (q : Nat × α) (hq : q ∈ l.enum) :
    q.1 < l.length := by
  have := mem_enumFrom_fst_lt l 0 q hq
  omega

theorem scarletFirst_length (l : List Player) : (scarletFirst l).length = l.length := by
  unfold scarletFirst
  cases hf : l.findIdx? (fun p => p.character = Suspect.MISS_SCARLET) with
  | none => rfl
  | some idx =>
      dsimp only
      by_cases h0 : idx = 0
      · rw [if_pos h0]
      · rw [if_neg h0]
        cases hg : l.get? idx with
        | none => rfl
        | some sp =>
            dsimp only
            have hlt : idx < l.length := by
              by_contra hc
              rw [List.get?_eq_none.mpr (Nat.le_of_not_lt hc)] at hg
              cases hg
            rw [List.length_cons, List.length_eraseIdx_of_lt hlt]
            omega

/-- Claim C7: after a completed `setup_game`, the deck holds exactly 21
distinct cards (6 suspects, 6 weapons, 9 rooms); the solution is one card of
each category; the hands dealt to the players together with the three solution
cards form exactly the full deck (a permutation, no duplicates or omissions);
and any two hands differ in size by at most one. -/
theorem C7_setup_deal (names : List String) (si wi : Fin 6) (ri : Fin 9)
    (chars : List Suspect) (shuffled : List Card)
    (h1 : 1 ≤ names.length) (h6 : names.length ≤ 6)
    (hchars : names.length ≤ chars.length)
    (hsh : shuffled.Perm (remainingCards (solutionOf si wi ri))) :
    ∃ gs, setupGame names si wi ri chars shuffled = some gs ∧
      allCardsList.length = 21 ∧ allCardsList.Nodup ∧
      (allCardsList.filter (fun c => c.card_type = "suspect")).length = 6 ∧
      (allCardsList.filter (fun c => c.card_type = "weapon")).length = 6 ∧
      (allCardsList.filter (fun c => c.card_type = "room")).length = 9 ∧
      (solutionOf si wi ri).suspect.card_type = "suspect" ∧
      (solutionOf si wi ri).weapon.card_type = "weapon" ∧
      (solutionOf si wi ri).room.card_type = "room" ∧
      ((gs.players.map (fun p => p.cards)).flatten ++
        [(solutionOf si wi ri).suspect, (solutionOf si wi ri).weapon,
         (solutionOf si wi ri).room]).Perm allCardsList ∧
      (∀ p1 ∈ gs.players, ∀ p2 ∈ gs.players,
        p1.cards.length ≤ p2.cards.length + 1) := by
  obtain ⟨hd1, hd2, hd3, hd4, hd5⟩ := allCards_facts
  obtain ⟨ht1, ht2, ht3⟩ := solutionOf_types si wi ri
  have hremlen : (remainingCards (solutionOf si wi ri)).length = 18 := by
    have hp := (remaining_solution_perm si wi ri).length_eq
    rw [List.length_append] at hp
    simp only [hd1] at hp
    simp only [List.length_cons, List.length_nil] at hp
    omega
  have hshlen : shuffled.length = 18 := by
    rw [hsh.length_eq, hremlen]
  unfold setupGame
  rw [if_neg (by omega : ¬names.length = 0),
      if_neg (by omega : ¬chars.length < names.length)]
  dsimp only
  refine ⟨_, rfl, hd1, hd2, hd3, hd4, hd5, ht1, ht2, ht3, ?_, ?_⟩
  all_goals
    set P0 : List Player := names.enum.map (fun q =>
      ({ name := q.2, character := chars.getD q.1 Suspect.MISS_SCARLET
         current_room := none, in_hallway := true
         position := some (STARTING_GRID_POSITIONS (chars.getD q.1 Suspect.MISS_SCARLET))
         moves_remaining := 0, visited_this_turn := [] } : Player)) with hP0
    have hP0len : P0.length = names.length := by
      rw [hP0, List.length_map, List.enum_length]
    have hRlen : (scarletFirst P0).length = names.length := by
      rw [scarletFirst_length, hP0len]
    have hR1 : 1 ≤ (scarletFirst P0).length := by omega
  · have hmm1 : ((scarletFirst P0).enum.map (fun q =>
        { q.2 with cards := dealtHand (scarletFirst P0).length q.1 shuffled })).map
          (fun p => p.cards) =
        (scarletFirst P0).enum.map (fun q =>
          dealtHand (scarletFirst P0).length q.1 shuffled) := by
      rw [List.map_map]
      rfl
    rw [hmm1, enum_map_fst_apply (scarletFirst P0)
      (fun j => dealtHand (scarletFirst P0).length j shuffled)]
    exact ((dealtHand_join_perm (scarletFirst P0).length hR1 shuffled).append_right _).trans
      ((hsh.append_right _).trans (remaining_solution_perm si wi ri))
  · intro p1 hp1 p2 hp2
    obtain ⟨q1, hq1, hfq1⟩ := List.mem_map.mp hp1
    obtain ⟨q2, hq2, hfq2⟩ := List.mem_map.mp hp2
    have hc1 : p1.cards = dealtHand (scarletFirst P0).length q1.1 shuffled := by
      rw [← hfq1]
    have hc2 : p2.cards = dealtHand (scarletFirst P0).length q2.1 shuffled := by
      rw [← hfq2]
    have hj1 : q1.1 < (scarletFirst P0).length := mem_enum_fst_lt _ _ hq1
    have hj2 : q2.1 < (scarletFirst P0).length := mem_enum_fst_lt _ _ hq2
    rw [hc1, hc2, dealtHand_length, dealtHand_length, hshlen]
    exact dealSizes_aux (scarletFirst P0).length hR1 (by omega)
      ⟨q1.1, hj1⟩ ⟨q2.1, hj2⟩

/-- Witness for C7 at a concrete input: a three-player setup with the identity
shuffle and the first card of each category as the solution. -/
theorem C7_setup_deal_witness :
    ∃ gs, setupGame ["P1", "P2", "P3"] 0 0 0 suspectList
        (remainingCards (solutionOf 0 0 0)) = some gs ∧
      allCardsList.length = 21 ∧ allCardsList.Nodup ∧
      (allCardsList.filter (fun c => c.card_type = "suspect")).length = 6 ∧
      (allCardsList.filter (fun c => c.card_type = "weapon")).length = 6 ∧
      (allCardsList.filter (fun c => c.card_type = "room")).length = 9 ∧
      (solutionOf 0 0 0).suspect.card_type = "suspect" ∧
      (solutionOf 0 0 0).weapon.card_type = "weapon" ∧
      (solutionOf 0 0 0).room.card_type = "room" ∧
      ((gs.players.map (fun p => p.cards)).flatten ++
        [(solutionOf 0 0 0).suspect, (solutionOf 0 0 0).weapon,
         (solutionOf 0 0 0).room]).Perm allCardsList ∧
      (∀ p1 ∈ gs.players, ∀ p2 ∈ gs.players,
        p1.cards.length ≤ p2.cards.length + 1) :=
  C7_setup_deal ["P1", "P2", "P3"] 0 0 0 suspectList
    (remainingCards (solutionOf 0 0 0)) (by decide) (by decide) (by decide)
    (List.Perm.refl _)

/-- Claim C10, amended.  The [3, 6] player-count validation lives in
`run_game` (main.py), which rejects `num_players` outside that range before
any setup happens; `setup_game` itself performs no count validation — called
directly, it succeeds for every name list of length 1 through the number of
available characters (6), and fails only for an empty list (division by zero
in the dealing loop) or for more names than characters (index error). -/
theorem C10_player_count_validation_amended :
    (∀ n : Int, runGameRejectsCount n = true ↔ (n < 3 ∨ 6 < n)) ∧
    (∀ (names : List String) (si wi : Fin 6) (ri : Fin 9)
       (chars : List Suspect) (shuffled : List Card),
      chars.length = 6 →
      ((setupGame names si wi ri chars shuffled).isSome = true ↔
        (1 ≤ names.length ∧ names.length ≤ 6))) := by
  constructor
  · intro n
    unfold runGameRejectsCount
    simp only [Bool.or_eq_true, decide_eq_true_eq]
  · intro names si wi ri chars shuffled hchars
    unfold setupGame
    by_cases h0 : names.length = 0
    · rw [if_pos h0]
      simp only [Option.isSome_none]
      constructor
      · intro h; cases h
      · intro ⟨ha, _⟩; omega
    · rw [if_neg h0]
      by_cases hlt : chars.length < names.length
      · rw [if_pos hlt]
        simp only [Option.isSome_none]
        constructor
        · intro h; cases h
        · intro ⟨_, hb⟩; omega
      · rw [if_neg hlt]
        simp only [Option.isSome_some, true_iff]
        omega

/-- Counterexample to claim C10 as stated: a two-name list is outside [3, 6]
(and `run_game` would reject the count 2), yet `setup_game` succeeds and
produces a configured game. -/
theorem C10_counterexample :
    runGameRejectsCount 2 = true ∧
    (setupGame ["P1", "P2"] 0 0 0 suspectList
      (remainingCards (solutionOf 0 0 0))).isSome = true := by
  decide

/-- Witness for C10 (amended) at concrete inputs. -/
theorem C10_player_count_validation_amended_witness :
    (runGameRejectsCount 7 = true ↔ ((7 : Int) < 3 ∨ 6 < (7 : Int))) ∧
    ((setupGame ["P1", "P2", "P3"] 0 0 0 suspectList
        (remainingCards (solutionOf 0 0 0))).isSome = true ↔
      (1 ≤ (["P1", "P2", "P3"] : List String).length ∧
        (["P1", "P2", "P3"] : List String).length ≤ 6)) :=
  ⟨C10_player_count_validation_amended.1 7,
   C10_player_count_validation_amended.2 ["P1", "P2", "P3"] 0 0 0 suspectList
     (remainingCards (solutionOf 0 0 0)) (by decide)⟩

/-- The `move_to_room` outcomes that report the target as unreachable with the
current budget (including the zero-budget message). -/
def isReachFailure : MoveRes → Bool
  | MoveRes.noMovesRemaining => true
  | MoveRes.cannotReach _ => true
  | MoveRes.cannotReachAny => true
  | _ => false

/-- Claim C2, amended.  For a player standing in a hallway, `move_to_room`
toward a room that is not reachable within the remaining budget fails with a
reachability outcome and leaves the game state — every field of every
player — exactly as it was.  (For a player inside a room the claim fails:
the tool exits the room through a door before discovering unreachability,
see the counterexample.) -/
theorem C2_move_to_room_unreachable_amended (gs : GameState)
    (pname rname : String) (i : Nat) (player : Player) (target : Room)
    (hfi : gs.players.findIdx? (fun p => p.name = pname) = some i)
    (hp : gs.players.get? i = some player)
    (hhall : player.in_hallway = true)
    (hroom : parseRoom rname = some target)
    (hunreach : target ∉ (getReachableRooms gs i).map (fun q => q.1)) :
    (moveToRoom gs pname rname).1 = gs ∧
    isReachFailure (moveToRoom gs pname rname).2 = true := by
  unfold moveToRoom
  rw [hfi]
  dsimp only
  rw [hp]
  dsimp only
  rw [hroom]
  dsimp only
  have hphase :
      (match player.current_room with
        | some cur =>
            if player.in_hallway then Except.ok gs
            else if SECRET_PASSAGES cur = some target then
              match useSecretPassage gs i with
              | (gs', true, _) => Except.error (gs', MoveRes.usedPassage target)
              | (gs', false, msg) => Except.error (gs', MoveRes.passageFailed msg)
            else
              let doors := getRoomDoors cur
              if doors = [] then Except.error (gs, MoveRes.noExitFound)
              else
                let occupied := occupiedExcept gs i
                match doors.find? (fun d => d ∉ occupied) with
                | none => Except.error (gs, MoveRes.allExitsBlocked)
                | some best =>
                    match exitRoomToHallway gs i best with
                    | (gs', true) => Except.ok gs'
                    | (gs', false) => Except.error (gs', MoveRes.couldNotExit)
        | none => Except.ok gs) = Except.ok gs := by
    cases hcr : player.current_room with
    | none => rfl
    | some cur =>
        dsimp only
        rw [if_pos hhall]
  rw [hphase]
  dsimp only
  rw [hp]
  dsimp only
  by_cases hm : player.moves_remaining = 0
  · rw [if_pos hm]
    exact ⟨rfl, rfl⟩
  · rw [if_neg hm]
    have hfindnone : (getReachableRooms gs i).find? (fun q => q.1 = target) = none := by
      apply List.find?_eq_none.mpr
      intro x hx
      simp only [decide_eq_true_eq]
      intro hxt
      exact hunreach (hxt ▸ List.mem_map_of_mem (fun q => q.1) hx)
    rw [hfindnone]
    dsimp only
    by_cases hr : getReachableRooms gs i ≠ []
    · rw [if_pos hr]
      exact ⟨rfl, rfl⟩
    · rw [if_neg hr]
      exact ⟨rfl, rfl⟩

/-- Counterexample to claim C2 as stated: the Kitchen player `pC` (budget 2)
asks to move to the Conservatory — unreachable, not adjacent, and not the
Kitchen's secret-passage destination.  The call fails with a reachability
outcome, yet the player has been moved: they now stand in the hallway at the
Kitchen door with one step consumed. -/
theorem C2_counterexample :
    isReachFailure (moveToRoom gsC "A" "Conservatory").2 = true ∧
    (moveToRoom gsC "A" "Conservatory").1 ≠ gsC ∧
    ((moveToRoom gsC "A" "Conservatory").1.players.get? 0).map
        (fun p => (p.in_hallway, p.current_room, p.moves_remaining)) =
      some (true, none, 1) := by
  decide

/-- Witness for C2 (amended) at a concrete input: the hallway player `pB`
(budget 3) cannot reach the Conservatory; the call fails and changes nothing. -/
theorem C2_move_to_room_unreachable_amended_witness :
    (moveToRoom gsB "A" "Conservatory").1 = gsB ∧
    isReachFailure (moveToRoom gsB "A" "Conservatory").2 = true :=
  C2_move_to_room_unreachable_amended gsB "A" "Conservatory" 0 pB Room.CONSERVATORY
    (by decide) (by decide) (by decide) (by decide) (by decide)

/-- Concrete player holding the Knife card, for the C5 witness. -/
def pG : Player :=
  { samplePlayer "B" Suspect.COLONEL_MUSTARD with
    cards := [{ name := "Knife", card_type := "weapon" }] }

/-- Concrete game: the Kitchen player suggesting against a Knife holder. -/
def gsG : GameState :=
  { players := [pC, pG], solution := sampleSolution }

/-- Witness for C5 at a concrete input: in `gsG` the Kitchen player suggests
Mrs. White with the Knife; the scan stops at the Knife holder. -/
theorem C5_disproof_scan_witness :
    match (scanOrder gsG.players.length 0).find?
        (holderAt gsG.players ["Mrs. White", "Knife", Room.KITCHEN.value]) with
    | none =>
        (okSugg (makeSuggestion gsG 0 "Mrs. White" "Knife" chooseHead)).disproven_by =
          none ∧
        (okSugg (makeSuggestion gsG 0 "Mrs. White" "Knife" chooseHead)).card_shown =
          none
    | some j => ∃ q, gsG.players.get? j = some q ∧
        (okSugg (makeSuggestion gsG 0 "Mrs. White" "Knife" chooseHead)).disproven_by =
          some q.name ∧
        ∃ c, c ∈ q.cards.filter
            (fun cd =>
              (["Mrs. White", "Knife", Room.KITCHEN.value] : List String).contains cd.name) ∧
          (okSugg (makeSuggestion gsG 0 "Mrs. White" "Knife" chooseHead)).card_shown =
            some c.name :=
  C5_disproof_scan gsG 0 "Mrs. White" "Knife" chooseHead
    (okState (makeSuggestion gsG 0 "Mrs. White" "Knife" chooseHead) gsG)
    (okSugg (makeSuggestion gsG 0 "Mrs. White" "Knife" chooseHead))
    pC Room.KITCHEN (by decide) (by decide) (by decide) chooseHead_mem rfl

/-- Claim C8, amended.  Both `raise` checks of `make_suggestion` precede every
mutation, so a rejected call has no successor state (the embedding returns only
an error).  Part one: a successful suggestion leaves the suggester with
`has_moved_since_suggestion = false` and `last_suggestion_room` equal to the
current room, and sets `was_moved_by_suggestion` exactly when the named suspect
resolves to the suggester — including a suggester naming their own character.
Part two: a follow-up suggestion by a player still in the room of their last
suggestion with `has_moved_since_suggestion = false` is accepted if and only if
the player's `was_moved_by_suggestion` flag is set (by any suggestion that
named their character, their own included), and rejected otherwise. -/
theorem C8_repeat_suggestion_amended :
    (∀ (gs : GameState) (i : Nat) (suspect weapon : String)
        (choose : List Card → Card) (gs' : GameState) (sugg : Suggestion)
        (player : Player) (curRoom : Room),
      gs.players.get? i = some player →
      player.current_room = some curRoom →
      makeSuggestion gs i suspect weapon choose = Except.ok (gs', sugg) →
      ∃ p', gs'.players.get? i = some p' ∧
        p'.current_room = some curRoom ∧
        p'.last_suggestion_room = some curRoom ∧
        p'.has_moved_since_suggestion = false ∧
        (p'.was_moved_by_suggestion = true ↔
          (gs.players.findIdx? (fun p => p.character.value = suspect) = some i ∨
           player.was_moved_by_suggestion = true))) ∧
    (∀ (gs1 : GameState) (i : Nat) (s2 w2 : String) (choose : List Card → Card)
        (p1 : Player) (room1 : Room),
      gs1.players.get? i = some p1 →
      p1.current_room = some room1 →
      p1.last_suggestion_room = some room1 →
      p1.has_moved_since_suggestion = false →
      isOkE (makeSuggestion gs1 i s2 w2 choose) = p1.was_moved_by_suggestion) := by
  constructor
  · intro gs i suspect weapon choose gs' sugg player curRoom hp hcr heq
    have hp' : gs.players[i]? = some player := by
      rw [← List.get?_eq_getElem?]; exact hp
    unfold makeSuggestion at heq
    rw [hp] at heq
    dsimp only at heq
    rw [hcr] at heq
    dsimp only at heq
    split at heq
    · cases heq
    · split at heq
      · cases heq
      · cases heq
        unfold moveSuspectToRoom
        cases hfind : gs.players.findIdx? (fun p => p.character.value = suspect) with
        | none =>
            dsimp only [updatePlayer]
            simp [updateAt_get?, updateAt_getElem?, hp, hp', hcr, suggesterUpd, movedUpd]
        | some j =>
            by_cases hji : j = i
            · subst hji
              dsimp only [updatePlayer]
              simp [updateAt_get?, updateAt_getElem?, hp, hp', suggesterUpd, movedUpd]
            · dsimp only [updatePlayer]
              simp [updateAt_get?, updateAt_getElem?, hp, hp', hcr, hji,
                suggesterUpd, movedUpd,
                show ¬(i = j) from fun hc => hji hc.symm]
  · intro gs1 i s2 w2 choose p1 room1 hp1 hcr1 hls1 hhm1
    unfold makeSuggestion
    rw [hp1]
    dsimp only
    rw [hcr1]
    dsimp only
    cases hw : p1.was_moved_by_suggestion with
    | true =>
        rw [if_neg (by simp [hw])]
        rw [if_neg (by simp [hw])]
        simp [isOkE, hw]
    | false =>
        cases he : p1.entered_room_this_turn with
        | false =>
            rw [if_pos (by simp [hw, he])]
            simp [isOkE, hw]
        | true =>
            rw [if_neg (by simp [he])]
            rw [if_pos ⟨by simp [hhm1], by simp [hw], by rw [hls1]⟩]
            simp [isOkE, hw]

/-- Counterexample to claim C8 as stated: the Kitchen player suggests their own
character; the engine marks them as moved by a suggestion, so their immediate
second suggestion in the same room is accepted even though no other player's
suggestion moved them there. -/
theorem C8_counterexample :
    pC.was_moved_by_suggestion = false ∧
    isOkE (makeSuggestion gsC 0 "Miss Scarlet" "Knife" chooseHead) = true ∧
    isOkE (makeSuggestion
      (okState (makeSuggestion gsC 0 "Miss Scarlet" "Knife" chooseHead) gsC)
      0 "Miss Scarlet" "Knife" chooseHead) = true := by
  decide

/-- Concrete player for the C8 witness: still in the Kitchen after a
suggestion there, with the moved-by-suggestion flag set. -/
def pF : Player :=
  { pC with
    last_suggestion_room := some Room.KITCHEN
    has_moved_since_suggestion := false
    was_moved_by_suggestion := true }

/-- Concrete game around `pF`. -/
def gsF : GameState :=
  { players := [pF, samplePlayer "B" Suspect.COLONEL_MUSTARD]
    solution := sampleSolution }

/-- Witness for C8 (amended) at concrete inputs. -/
theorem C8_repeat_suggestion_amended_witness :
    (∃ p', (okState (makeSuggestion gsC 0 "Miss Scarlet" "Knife" chooseHead)
          gsC).players.get? 0 = some p' ∧
      p'.current_room = some Room.KITCHEN ∧
      p'.last_suggestion_room = some Room.KITCHEN ∧
      p'.has_moved_since_suggestion = false ∧
      (p'.was_moved_by_suggestion = true ↔
        (gsC.players.findIdx? (fun p => p.character.value = "Miss Scarlet") = some 0 ∨
         pC.was_moved_by_suggestion = true))) ∧
    isOkE (makeSuggestion gsF 0 "Colonel Mustard" "Rope" chooseHead) =
      pF.was_moved_by_suggestion :=
  ⟨C8_repeat_suggestion_amended.1 gsC 0 "Miss Scarlet" "Knife" chooseHead
      (okState (makeSuggestion gsC 0 "Miss Scarlet" "Knife" chooseHead) gsC)
      (okSugg (makeSuggestion gsC 0 "Miss Scarlet" "Knife" chooseHead))
      pC Room.KITCHEN (by decide) (by decide) rfl,
   C8_repeat_suggestion_amended.2 gsF 0 "Colonel Mustard" "Rope" chooseHead
      pF Room.KITCHEN (by decide) (by decide) (by decide) (by decide)⟩

/-- Claim C6: an accepted accusation either matches the solution exactly —
then the game ends with the accuser as winner — or eliminates the accuser,
and when exactly one active player remains after the elimination the game
ends with that player as winner. -/
theorem C6_accusation_outcomes (gs : GameState) (i : Nat) (s w r : String)
    (player : Player) (hp : gs.players.get? i = some player)
    (hacc : player.has_accused_this_turn = false) :
    ∃ gs' correct, makeAccusation gs i s w r = Except.ok (gs', correct) ∧
      (correct = true ↔ gs.solution.suspect.name = s ∧
        gs.solution.weapon.name = w ∧ gs.solution.room.name = r) ∧
      (correct = true → gs'.game_over = true ∧ gs'.winner = some player.name) ∧
      (correct = false →
        ((gs'.players.get? i).map (fun p => p.is_active) = some false) ∧
        ((gs'.players.filter (fun p => p.is_active)).length = 1 →
          gs'.game_over = true ∧
          gs'.winner =
            (gs'.players.filter (fun p => p.is_active)).head?.map (fun p => p.name))) := by
  have hp' : gs.players[i]? = some player := by
    rw [← List.get?_eq_getElem?]; exact hp
  unfold makeAccusation
  rw [hp]
  dsimp only
  rw [if_neg (by simp [hacc])]
  by_cases hc : gs.solution.suspect.name = s ∧ gs.solution.weapon.name = w ∧
      gs.solution.room.name = r
  · rw [if_pos (decide_eq_true hc)]
    refine ⟨_, true, rfl, by simp [hc], fun _ => ⟨rfl, rfl⟩, fun h => Bool.noConfusion h⟩
  · rw [if_neg (by simp [hc])]
    refine ⟨_, false, rfl, by simp [hc], fun h => Bool.noConfusion h, fun _ => ?_⟩
    set gs2 := updatePlayer
      (updatePlayer gs i fun p => { p with has_accused_this_turn := true }) i
      (fun p => { p with is_active := false }) with hgs2
    have hpl :
        (if (gs2.players.filter (fun p => p.is_active)).length = 1 then
          { gs2 with game_over := true
                     winner := (gs2.players.filter (fun p => p.is_active)).head?.map
                       (fun p => p.name) }
         else gs2).players = gs2.players := by
      by_cases hl : (gs2.players.filter (fun p => p.is_active)).length = 1 <;> simp [hl]
    constructor
    · rw [hpl, hgs2]
      dsimp only [updatePlayer]
      rw [updateAt_get?, updateAt_get?]
      simp [hp, hp']
    · rw [hpl]
      intro hlen
      rw [if_pos hlen]
      exact ⟨rfl, rfl⟩

/-- Witness for C6 at a concrete input: player `pA` (who has not yet accused
this turn) accusing in the sample game. -/
theorem C6_accusation_outcomes_witness :
    ∃ gs' correct,
      makeAccusation gsA 0 "Miss Scarlet" "Knife" "Kitchen" = Except.ok (gs', correct) ∧
      (correct = true ↔ gsA.solution.suspect.name = "Miss Scarlet" ∧
        gsA.solution.weapon.name = "Knife" ∧ gsA.solution.room.name = "Kitchen") ∧
      (correct = true → gs'.game_over = true ∧ gs'.winner = some pA.name) ∧
      (correct = false →
        ((gs'.players.get? 0).map (fun p => p.is_active) = some false) ∧
        ((gs'.players.filter (fun p => p.is_active)).length = 1 →
          gs'.game_over = true ∧
          gs'.winner =
            (gs'.players.filter (fun p => p.is_active)).head?.map (fun p => p.name))) :=
  C6_accusation_outcomes gsA 0 "Miss Scarlet" "Knife" "Kitchen" pA (by decide) (by decide)

/-- Witness for C9 (amended) at a concrete input: the Kitchen player `pC` with
budget 2 exiting through the Kitchen door. -/
theorem C9_exit_room_amended_witness :
    ((exitRoomToHallway gsC 0 (6, 6)).2 = true ↔
      ∃ cur, pC.current_room = some cur ∧
        getCellType 6 6 = (CellType.DOOR, some cur) ∧
        (6, 6) ∉ occupiedExcept gsC 0) ∧
    ((exitRoomToHallway gsC 0 (6, 6)).2 = true →
      ((exitRoomToHallway gsC 0 (6, 6)).1.players.get? 0).map
          (fun p => (p.current_room, p.in_hallway, p.position, p.moves_remaining)) =
        some (none, true, some (6, 6),
          if 0 < pC.moves_remaining then pC.moves_remaining - 1
          else pC.moves_remaining)) :=
  C9_exit_room_amended gsC 0 (6, 6) pC (by decide)

end Clue
